import Mathlib

/-! # storj-notes: a verification development

A shallow embedding of the note store `github.com/egonelbre/storj-notes`
(`notes/note.go`, `notes/service.go`, `main.go`) and the proofs of its
specified properties.

Conventions of the embedding.

* A Go `string` and a `[]byte` are both a Lean `String`; the conversions
  `[]byte(s)` and `string(b)` keep the bytes and are the identity here.
* A Go `error` result is an `Option GoError` (`none` is `nil`); a result pair
  `(x, err)` is an `Except GoError _`.
* The storage client `storj.io/uplink` is a collaborator: it is a record of
  transition functions over a state of its own (`Uplink`), and every function
  of the program is defined for every such record.  The program's calls to it
  are logged in the order they are made.
* `time.Time`, `time.Parse`, `Time.Format` and `Time.String` of the Go
  standard library are modelled as far as the layout `time.RFC3339` and the
  default layout of `Time.String` need.
* `context.Context` is passed through unchanged by every function and carries
  no data the program reads; a cancellation shows as an error returned by the
  collaborator.
-/

namespace Notes

/-! ## Go standard library: `time` -/

/-- A `time.Time`, kept as the civil reading of the instant in the time's own
zone: date, clock, nanosecond, the zone's offset east of UTC in seconds and
the zone's abbreviation (empty when the zone has none, as `FixedZone("", _)`). -/
structure Time where
  year : Nat
  month : Nat
  day : Nat
  hour : Nat
  minute : Nat
  second : Nat
  nsec : Nat
  offset : Int
  zone : String
deriving DecidableEq, Repr

/-- The zero value `time.Time{}`: January 1, year 1, 00:00:00 UTC. -/
def Time.zero : Time := ⟨1, 1, 1, 0, 0, 0, 0, 0, "UTC"⟩

instance : Inhabited Time := ⟨Time.zero⟩

/-- The function `isLeap` of package `time`. -/
def isLeap (year : Nat) : Bool :=
  year % 4 == 0 && (year % 100 != 0 || year % 400 == 0)

/-- The function `daysIn` of package `time`: the days of month `m` in `year`. -/
def daysIn (m year : Nat) : Nat :=
  if m == 2 && isLeap year then 29
  else match m with
    | 1 => 31 | 2 => 28 | 3 => 31 | 4 => 30 | 5 => 31 | 6 => 30
    | 7 => 31 | 8 => 31 | 9 => 30 | 10 => 31 | 11 => 30 | 12 => 31
    | _ => 0

/-- The decimal digit of a number below ten. -/
def digitChar (d : Nat) : Char := Char.ofNat (48 + d)

/-- The decimal digits of `x`, most significant first, `fuel` bounding their
number. -/
def decimalDigits : Nat → Nat → List Char
  | 0, _ => []
  | fuel + 1, x => if x < 10 then [digitChar x] else decimalDigits fuel (x / 10) ++ [digitChar (x % 10)]

/-- The function `appendInt` of package `time` for a non-negative `x`: the
decimal digits of `x`, padded on the left with zeros to `width`. -/
def appendInt (x width : Nat) : List Char :=
  let ds := decimalDigits (x + 1) x
  List.replicate (width - ds.length) '0' ++ ds

/-- The sign and the two two-digit fields of a zone offset, with `sep` between
them: `offset / 60` minutes, truncated toward zero, as `-07:00` or `-0700`. -/
def appendZone (offset : Int) (sep : List Char) : List Char :=
  let zone := Int.tdiv offset 60
  (if zone < 0 then ['-'] else ['+'])
    ++ appendInt (zone.natAbs / 60) 2 ++ sep ++ appendInt (zone.natAbs % 60) 2

/-- The date and clock fields common to both layouts, `sep` between date and
clock. -/
def appendDateClock (t : Time) (sep : Char) : List Char :=
  appendInt t.year 4 ++ ['-'] ++ appendInt t.month 2 ++ ['-'] ++ appendInt t.day 2
    ++ [sep] ++ appendInt t.hour 2 ++ [':'] ++ appendInt t.minute 2 ++ [':']
    ++ appendInt t.second 2

/-- The method `t.Format(time.RFC3339)`, layout `2006-01-02T15:04:05Z07:00`:
a zero offset prints as `Z`. -/
def formatRFC3339 (t : Time) : String :=
  String.mk (appendDateClock t 'T'
    ++ (if t.offset = 0 then ['Z'] else appendZone t.offset [':']))

/-- A list of digits without its trailing zeros. -/
def trimZeros (ds : List Char) : List Char :=
  (ds.reverse.dropWhile (fun c => c == '0')).reverse

/-- The layout element `.999999999`: nothing for a whole second, else the
point and the nine digits of the nanosecond without trailing zeros. -/
def appendNano9 (nsec : Nat) : List Char :=
  if nsec = 0 then [] else '.' :: trimZeros (appendInt nsec 9)

/-- The method `t.String()` of a time without a monotonic clock reading,
layout `2006-01-02 15:04:05.999999999 -0700 MST`; a zone without an
abbreviation prints its offset again. -/
def Time.String (t : Time) : String :=
  String.mk (appendDateClock t ' ' ++ appendNano9 t.nsec ++ [' '] ++ appendZone t.offset []
    ++ [' '] ++ (if t.zone ≠ "" then t.zone.data else appendZone t.offset []))

/-- What the program takes from the Go runtime about time. -/
structure TimeEnv where
  /-- The reading `time.Now()` gives. -/
  now : Time
  /-- The zone `time.Local` at the instant a parsed time denotes: its
  abbreviation there when its offset there is the parsed offset, `none` when
  the two offsets differ.  The argument is the parsed time. -/
  localAbbrev : Time → Option String
  /-- The layout-driven parser `parse(time.RFC3339, value, UTC, Local)`, which
  `time.Parse` runs on a value the strict RFC 3339 parser rejected. -/
  layoutParse : String → Option Time

/-- The slice `s[i:j]`. -/
def slice (s : List Char) (i j : Nat) : List Char := (s.drop i).take (j - i)

/-- The closure `parseUint` of `parseRFC3339`: `s` as an unsigned decimal
number within `[lo, hi]`; `none` stands for the closure clearing `ok`. -/
def parseUint (s : List Char) (lo hi : Nat) : Option Nat :=
  if s.all Char.isDigit then
    let x := s.foldl (fun x c => x * 10 + (c.toNat - 48)) 0
    if x < lo ∨ hi < x then none else some x
  else none

/-- The function `parseNanoseconds` on a point followed by digits, `value`
holding the point and the digits: at most nine digits count, scaled to
nanoseconds. -/
def parseNanoseconds (value : List Char) : Nat :=
  let digits := (value.take 10).drop 1
  digits.foldl (fun x c => x * 10 + (c.toNat - 48)) 0 * 10 ^ (10 - (value.take 10).length)

/-- The strict parser `parseRFC3339` of package `time`, the first thing
`time.Parse` tries for the layout `time.RFC3339`. -/
def parseRFC3339 (env : TimeEnv) (s : List Char) : Option Time :=
  if s.length < 19 then none else
  match parseUint (slice s 0 4) 0 9999, parseUint (slice s 5 7) 1 12 with
  | some year, some month =>
    match parseUint (slice s 8 10) 1 (daysIn month year), parseUint (slice s 11 13) 0 23,
        parseUint (slice s 14 16) 0 59, parseUint (slice s 17 19) 0 59 with
    | some day, some hour, some min, some sec =>
      if ¬ (s[4]? = some '-' ∧ s[7]? = some '-' ∧ s[10]? = some 'T' ∧ s[13]? = some ':'
          ∧ s[16]? = some ':') then none else
      let s1 := s.drop 19
      -- the fractional second
      let frac := s1.length ≥ 2 ∧ s1[0]? = some '.' ∧ (s1.drop 1).head?.any Char.isDigit
      let n := if frac then 1 + ((s1.drop 1).takeWhile Char.isDigit).length else 0
      let nsec := if frac then parseNanoseconds (s1.take n) else 0
      let s2 := s1.drop n
      -- the time zone
      if s2 = ['Z'] then some ⟨year, month, day, hour, min, sec, nsec, 0, "UTC"⟩
      else if s2.length ≠ 6 then none
      else
        match parseUint (slice s2 1 3) 0 23, parseUint (slice s2 4 6) 0 59 with
        | some hr, some mm =>
          if ¬ ((s2[0]? = some '-' ∨ s2[0]? = some '+') ∧ s2[3]? = some ':') then none else
          let zoneOffset : Int := (hr * 60 + mm) * 60
          let zoneOffset := if s2[0]? = some '-' then - zoneOffset else zoneOffset
          let t : Time := ⟨year, month, day, hour, min, sec, nsec, zoneOffset, ""⟩
          match env.localAbbrev t with
          | some name => some { t with zone := name }
          | none => some t
        | _, _ => none
    | _, _, _, _ => none
  | _, _ => none

/-- The call `time.Parse(time.RFC3339, value)`: the strict parser, and the
layout-driven one on what the strict one rejects. `none` is a non-nil error. -/
def timeParse (env : TimeEnv) (value : String) : Option Time :=
  match parseRFC3339 env value.data with
  | some t => some t
  | none => env.layoutParse value

/-! ## Go values the program handles -/

/-- A non-nil Go `error`.  An error built by `fmt.Errorf` keeps its format
string and its operands; every `fmt.Errorf` of the program has one `%q`
`%w` operand, mostly after one `%q` operand, and possibly a last `%v` operand. -/
inductive GoError where
  /-- An error a collaborator returned. -/
  | lib (msg : String)
  /-- The error `fmt.Errorf(format, w)`, `w` under the verb `%w`. -/
  | errorfW (format : String) (w : GoError)
  /-- The error `fmt.Errorf(format, arg, w)`, `arg` under `%q` and `w` under
  `%w`. -/
  | errorf (format : String) (arg : String) (w : GoError)
  /-- The error `fmt.Errorf(format, arg, w, v)`, `w` under `%w` and a non-nil
  `v` under `%v`. -/
  | errorfErr (format : String) (arg : String) (w : GoError) (v : GoError)
  /-- The error `fmt.Errorf(format, arg, w, nil)`, `w` under `%w`. -/
  | errorfNil (format : String) (arg : String) (w : GoError)
deriving DecidableEq, Repr

/-- The call `fmt.Errorf(format, arg, w, v)` for an `error` operand `v` that
may be nil. -/
def GoError.errorfV (format arg : String) (w : GoError) (v : Option GoError) : GoError :=
  match v with
  | some e => GoError.errorfErr format arg w e
  | none => GoError.errorfNil format arg w

/-- The function `errors.Unwrap`: what the error wraps with `%w`, if anything. -/
def GoError.Unwrap : GoError → Option GoError
  | GoError.lib _ => none
  | GoError.errorfW _ w => some w
  | GoError.errorf _ _ w => some w
  | GoError.errorfErr _ _ w _ => some w
  | GoError.errorfNil _ _ w => some w

/-- One write to the standard error stream, format string and operands kept. -/
inductive StderrItem where
  /-- The call `fmt.Fprintln(os.Stderr, s)`; the empty call is `s = ""`. -/
  | println (s : String)
  /-- The call `fmt.Fprintf(os.Stderr, format, s)` with one `%q` operand. -/
  | printfQ (format : String) (s : String)
  /-- The call `fmt.Fprintf(os.Stderr, format, err)` with one `%v` operand. -/
  | printfV (format : String) (err : GoError)
  /-- The call `fmt.Fprintf(os.Stderr, format, s, err)`, operands `%q`, `%v`. -/
  | printfQV (format : String) (s : String) (err : GoError)
  /-- The call `flag.Usage()`, which prints the usage text. -/
  | usage
deriving DecidableEq, Repr

/-- The type `uplink.CustomMetadata`, a `map[string]string`; the entry of a
key is its first pair. -/
abbrev CustomMetadata := List (String × String)

/-- The fields of `uplink.Object` the program reads: the key and the custom
metadata, `none` for a nil map. -/
structure Object where
  Key : String
  Custom : Option CustomMetadata
deriving DecidableEq, Repr

/-! ## notes/note.go -/

/-- NoteMeta is information without the message. -/
structure NoteMeta where
  Identifier : String
  Uploaded : Time
deriving DecidableEq, Repr

/-- Note is what is stored. -/
structure Note where
  toNoteMeta : NoteMeta
  Message : String
deriving DecidableEq, Repr

/-- The constant `uploadTime`. -/
def uploadTime : String := "notes:upload-time"

/-- ParseNoteMeta parses note metadata from info.  The second component is
the standard error stream after the call. -/
def ParseNoteMeta (env : TimeEnv) (info : Object) (stderr : List StderrItem) :
    NoteMeta × List StderrItem :=
  let meta : NoteMeta := ⟨info.Key, Time.zero⟩
  match info.Custom with
  | some custom =>
    match custom.lookup uploadTime with
    | some s =>
      match timeParse env s with
      | none => (meta, stderr ++ [StderrItem.printfQ "failed to parse upload time %q\n" s])
      | some t => ({ meta with Uploaded := t }, stderr)
    | none => (meta, stderr)
  | none => (meta, stderr)

/-- ParseNote parses note from data and info. -/
def ParseNote (env : TimeEnv) (info : Object) (data : String) (stderr : List StderrItem) :
    Note × List StderrItem :=
  let r := ParseNoteMeta env info stderr
  (⟨r.1, data⟩, r.2)

/-! ## The collaborator `storj.io/uplink` -/

/-- The type `uplink.ListObjectsOptions`, as far as the program sets it. -/
structure ListObjectsOptions where
  Prefix : String
  Recursive : Bool
  Custom : Bool
deriving DecidableEq, Repr

/-- An `uplink.ObjectIterator` of a finite enumeration: the objects `Item`
gives while `Next` reports true, one after the other, and what `Err` gives
once `Next` has reported false. -/
structure ObjectIterator where
  items : List Object
  err : Option GoError
deriving DecidableEq, Repr

/-- The storage client: the functions and methods of `storj.io/uplink` the
program calls, as transitions of the client's own state. -/
structure Uplink where
  State : Type
  Access : Type
  Project : Type
  Upload : Type
  Download : Type
  RequestAccessWithPassphrase : State → String → String → String → State × Except GoError Access
  ParseAccess : State → String → State × Except GoError Access
  OpenProject : State → Access → State × Except GoError Project
  EnsureBucket : State → Project → String → State × Option GoError
  UploadObject : State → Project → String → String → State × Except GoError Upload
  Write : State → Upload → String → State × Option GoError
  SetCustomMetadata : State → Upload → CustomMetadata → State × Option GoError
  Abort : State → Upload → State × Option GoError
  Commit : State → Upload → State × Option GoError
  DownloadObject : State → Project → String → String → State × Except GoError Download
  ReadAll : State → Download → State × Except GoError String
  Info : State → Download → Object
  CloseDownload : State → Download → State × Option GoError
  ListObjects : State → Project → String → ListObjectsOptions → State × ObjectIterator
  DeleteObject : State → Project → String → String → State × Option GoError
  CloseProject : State → Project → State × Option GoError

/-- One call of the program to the storage client, with its operands that are
not handles. -/
inductive Call where
  | RequestAccessWithPassphrase (satellite apikey passphrase : String)
  | ParseAccess (access : String)
  | OpenProject
  | EnsureBucket (bucket : String)
  | UploadObject (bucket key : String)
  | Write (data : String)
  | SetCustomMetadata (custom : CustomMetadata)
  | Abort
  | Commit
  | DownloadObject (bucket key : String)
  | ReadAll
  | CloseDownload
  | ListObjects (bucket : String) (options : ListObjectsOptions)
  | DeleteObject (bucket key : String)
  | CloseProject
deriving DecidableEq, Repr

/-- What a run of the program changes: the storage client's state, the log of
the calls made to the client (oldest first), and the two output streams. -/
structure World (U : Uplink) where
  uplink : U.State
  calls : List Call
  stdout : String
  stderr : List StderrItem

/-- The world with one more call logged. -/
def World.call {U : Uplink} (w : World U) (c : Call) : World U :=
  { w with calls := w.calls ++ [c] }

/-- The world with the client in state `st`. -/
def World.setUplink {U : Uplink} (w : World U) (st : U.State) : World U :=
  { w with uplink := st }

/-! ## notes/service.go -/

/-- Service implements accessing notes. -/
structure Service (U : Uplink) where
  project : U.Project
  bucket : String

/-- Open opens a new service. -/
def Open (U : Uplink) (w : World U) (access : U.Access) (bucket : String) :
    World U × Except GoError (Service U) :=
  -- Open the project.
  let r := U.OpenProject (w.call Call.OpenProject).uplink access
  let w := (w.call Call.OpenProject).setUplink r.1
  match r.2 with
  | Except.error err => (w, Except.error (GoError.errorfW "failed to open project: %w" err))
  | Except.ok project =>
    -- Ensure that our notes bucket exists.
    let r := U.EnsureBucket w.uplink project bucket
    let w := (w.call (Call.EnsureBucket bucket)).setUplink r.1
    match r.2 with
    | some err => (w, Except.error (GoError.errorf "failed to ensure bucket %q: %w" bucket err))
    | none => (w, Except.ok ⟨project, bucket⟩)

/-- The deferred `download.Close()` of `Get`; its result is dropped. -/
def closeDownload {U : Uplink} (w : World U) (download : U.Download) : World U :=
  (w.call Call.CloseDownload).setUplink (U.CloseDownload w.uplink download).1

/-- Get loads the specific note from Storj network. -/
def Service.Get {U : Uplink} (service : Service U) (env : TimeEnv) (w : World U)
    (identifier : String) : World U × Except GoError Note :=
  -- Start a new download from the network.
  let r := U.DownloadObject w.uplink service.project service.bucket identifier
  let w := (w.call (Call.DownloadObject service.bucket identifier)).setUplink r.1
  match r.2 with
  | Except.error err =>
    (w, Except.error (GoError.errorf "failed to start download %q: %w" identifier err))
  | Except.ok download =>
    let r := U.ReadAll w.uplink download
    let w := (w.call Call.ReadAll).setUplink r.1
    match r.2 with
    | Except.error err =>
      (closeDownload w download,
        Except.error (GoError.errorf "failed to download %q: %w" identifier err))
    | Except.ok data =>
      let p := ParseNote env (U.Info w.uplink download) data w.stderr
      (closeDownload { w with stderr := p.2 } download, Except.ok p.1)

/-- Set sets the specific note. -/
def Service.Set {U : Uplink} (service : Service U) (env : TimeEnv) (w : World U)
    (identifier value : String) : World U × Option GoError :=
  let r := U.UploadObject w.uplink service.project service.bucket identifier
  let w := (w.call (Call.UploadObject service.bucket identifier)).setUplink r.1
  match r.2 with
  | Except.error err =>
    (w, some (GoError.errorf "failed to start upload %q: %w" identifier err))
  | Except.ok upload =>
    let r := U.Write w.uplink upload value
    let w := (w.call (Call.Write value)).setUplink r.1
    match r.2 with
    | some err =>
      -- Ensure that the satellite knows we failed to upload.
      let a := U.Abort w.uplink upload
      ((w.call Call.Abort).setUplink a.1,
        some (GoError.errorfV "failed to upload %q: %w, %v" identifier err a.2))
    | none =>
      -- Set some additional information about the note.
      let custom : CustomMetadata := [(uploadTime, formatRFC3339 env.now)]
      let r := U.SetCustomMetadata w.uplink upload custom
      let w := (w.call (Call.SetCustomMetadata custom)).setUplink r.1
      match r.2 with
      | some err =>
        -- Ensure that the satellite knows we failed to upload.
        let a := U.Abort w.uplink upload
        ((w.call Call.Abort).setUplink a.1,
          some (GoError.errorfV "failed to set metadata %q: %w, %v" identifier err a.2))
      | none =>
        -- Commit the data to the database.
        let r := U.Commit w.uplink upload
        let w := (w.call Call.Commit).setUplink r.1
        match r.2 with
        | some err => (w, some (GoError.errorf "failed commit %q: %w" identifier err))
        | none => (w, none)

/-- Delete deletes the specified note. -/
def Service.Delete {U : Uplink} (service : Service U) (w : World U) (identifier : String) :
    World U × Option GoError :=
  let r := U.DeleteObject w.uplink service.project service.bucket identifier
  let w := (w.call (Call.DeleteObject service.bucket identifier)).setUplink r.1
  match r.2 with
  | some err => (w, some (GoError.errorf "failed to delete %q: %w" identifier err))
  | none => (w, none)

/-- The loop `for it.Next() { ... }` of `List` over the objects the iterator
still has to give: `notes` and the standard error stream so far, and after. -/
def listLoop (env : TimeEnv) :
    List Object → List NoteMeta → List StderrItem → List NoteMeta × List StderrItem
  | [], notes, stderr => (notes, stderr)
  | info :: rest, notes, stderr =>
    let p := ParseNoteMeta env info stderr
    listLoop env rest (notes ++ [p.1]) p.2

/-- List lists all the items.  A nil slice is the empty list. -/
def Service.List {U : Uplink} (service : Service U) (env : TimeEnv) (w : World U)
    (pfx : String) : World U × List NoteMeta × Option GoError :=
  let options : ListObjectsOptions := ⟨pfx, true, true⟩
  let r := U.ListObjects w.uplink service.project service.bucket options
  let w := (w.call (Call.ListObjects service.bucket options)).setUplink r.1
  let it := r.2
  let p := listLoop env it.items [] w.stderr
  let w := { w with stderr := p.2 }
  match it.err with
  | some err => (w, [], some (GoError.errorf "iteration failed (prefix=%q): %w" pfx err))
  | none => (w, p.1, none)

/-- Close closes the service and resources. -/
def Service.Close {U : Uplink} (service : Service U) (w : World U) : World U × Option GoError :=
  let r := U.CloseProject w.uplink service.project
  ((w.call Call.CloseProject).setUplink r.1, r.2)

/-! ## Go standard library: `fmt` on the program's values -/

/-- The text `fmt` prints for a `NoteMeta` under `%v`: the fields between
braces, a blank between them, the time through its `String` method. -/
def fmtNoteMeta (m : NoteMeta) : String :=
  "\x7b" ++ m.Identifier ++ " " ++ m.Uploaded.String ++ "\x7d"

/-- The text `fmt` prints for a `Note` under `%v`: the embedded `NoteMeta`
and the message between braces. -/
def fmtNote (n : Note) : String :=
  "\x7b" ++ fmtNoteMeta n.toNoteMeta ++ " " ++ n.Message ++ "\x7d"

/-- The call `fmt.Println(x)` for an operand that prints as `text`: the
standard output stream after it. -/
def Println (stdout text : String) : String := stdout ++ text ++ "\n"

/-! ## main.go -/

/-- One start of the program, for a command line `flag.Parse` accepts: the
environment variables (`os.Getenv` gives the empty string for one that is not
set), the flags given on the command line, and the positional arguments. -/
structure Invocation where
  NOTES_PASSPHRASE : String
  NOTES_APIKEY : String
  NOTES_SATELLITE : String
  NOTES_ACCESS : String
  NOTES_BUCKET : String
  passphrase : Option String
  apikey : Option String
  satellite : Option String
  access : Option String
  bucket : Option String
  args : List String
deriving DecidableEq, Repr

/-- The call `flag.Arg(i)`: the `i`-th positional argument, the empty string
when there is none. -/
def Invocation.Arg (inv : Invocation) (i : Nat) : String := inv.args.getD i ""

/-- The value of a string flag after `flag.Parse`: what the command line
gives, else the default the flag was declared with. -/
def flagValue (given : Option String) (dflt : String) : String := given.getD dflt

/-- The variable `hasPassword` of `main`. -/
def Invocation.hasPassword (inv : Invocation) : Bool :=
  flagValue inv.passphrase inv.NOTES_PASSPHRASE != ""
    && flagValue inv.apikey inv.NOTES_APIKEY != ""
    && flagValue inv.satellite inv.NOTES_SATELLITE != ""

/-- The variable `hasAccess` of `main`. -/
def Invocation.hasAccess (inv : Invocation) : Bool :=
  flagValue inv.access inv.NOTES_ACCESS != ""

/-- The bucket name `main` uses: the environment's, `notes` when that is
empty, and whatever the flag gives when the flag is given. -/
def Invocation.bucketName (inv : Invocation) : String :=
  flagValue inv.bucket (if inv.NOTES_BUCKET == "" then "notes" else inv.NOTES_BUCKET)

/-- The world with `items` written to the standard error stream. -/
def World.eprint {U : Uplink} (w : World U) (items : List StderrItem) : World U :=
  { w with stderr := w.stderr ++ items }

/-- The loop `for _, identifier := range identifiers` of `main`, each element
printed with `fmt.Println`: the standard output stream after it. -/
def printIdentifiers : List NoteMeta → String → String
  | [], stdout => stdout
  | identifier :: identifiers, stdout =>
    printIdentifiers identifiers (Println stdout (fmtNoteMeta identifier))

/-- The deferred closure of `main`, run when `main` returns: close the
service and report a failure to do so. -/
def deferredClose {U : Uplink} (service : Service U) (w : World U) : World U :=
  let r := service.Close w
  match r.2 with
  | some err => r.1.eprint [StderrItem.printfV "failed to close service: %v\n" err]
  | none => r.1

/-- The `switch command` of `main`, the service open.  `os.Exit(1)` ends the
process at once, the deferred closure not run; falling out of the switch
returns from `main`, which runs the deferred closure and ends with status 0. -/
def dispatch {U : Uplink} (env : TimeEnv) (service : Service U) (w : World U)
    (command identifier value : String) : World U × Nat :=
  if command = "get" then
    let r := service.Get env w identifier
    match r.2 with
    | Except.error err =>
      (r.1.eprint [StderrItem.printfQV "failed to get note %q: %v\n" identifier err], 1)
    | Except.ok note =>
      (deferredClose service { r.1 with stdout := Println r.1.stdout (fmtNote note) }, 0)
  else if command = "set" then
    let r := service.Set env w identifier value
    match r.2 with
    | some err =>
      (r.1.eprint [StderrItem.printfQV "failed to set note %q: %v\n" identifier err], 1)
    | none => (deferredClose service r.1, 0)
  else if command = "list" then
    let r := service.List env w identifier
    match r.2.2 with
    | some err =>
      (r.1.eprint [StderrItem.printfQV "failed to set note %q: %v\n" identifier err], 1)
    | none =>
      (deferredClose service
        { r.1 with stdout := printIdentifiers r.2.1 r.1.stdout }, 0)
  else if command = "delete" then
    let r := service.Delete w identifier
    match r.2 with
    | some err =>
      (r.1.eprint [StderrItem.printfQV "failed to delete note %q: %v\n" identifier err], 1)
    | none => (deferredClose service r.1, 0)
  else (w, 1)

/-- The step `open the access` of `main`: through the satellite when the
passphrase, the API key and the satellite are all set, else by parsing the
access grant. -/
def resolveAccess (U : Uplink) (inv : Invocation) (w : World U) :
    World U × Except GoError U.Access :=
  let satellite := flagValue inv.satellite inv.NOTES_SATELLITE
  let apikey := flagValue inv.apikey inv.NOTES_APIKEY
  let passphrase := flagValue inv.passphrase inv.NOTES_PASSPHRASE
  let accessString := flagValue inv.access inv.NOTES_ACCESS
  if inv.hasPassword then
    let r := U.RequestAccessWithPassphrase w.uplink satellite apikey passphrase
    ((w.call (Call.RequestAccessWithPassphrase satellite apikey passphrase)).setUplink r.1, r.2)
  else
    let r := U.ParseAccess w.uplink accessString
    ((w.call (Call.ParseAccess accessString)).setUplink r.1, r.2)

/-- The function `main` after the signal handler is installed: the world when
the process ends, and its exit status. -/
def main (U : Uplink) (env : TimeEnv) (inv : Invocation) (w : World U) : World U × Nat :=
  if !inv.hasPassword && !inv.hasAccess then
    (w.eprint [StderrItem.println "Authentication information not set:",
      StderrItem.println "* --passphrase, --apikey, --satellite",
      StderrItem.println "* --access",
      StderrItem.println "",
      StderrItem.usage], 1)
  else
  let command := inv.Arg 0
  let identifier := inv.Arg 1
  if command = "" then
    (w.eprint [StderrItem.println "Command not set `list`, `get`, `set`, `delete`",
      StderrItem.println "",
      StderrItem.usage], 1)
  else
  -- open the access
  let r := resolveAccess U inv w
  match r.2 with
  | Except.error err =>
    (r.1.eprint [StderrItem.printfV "unable to load access grant: %v\n" err], 1)
  | Except.ok access =>
    -- start the service
    let r := Open U r.1 access inv.bucketName
    match r.2 with
    | Except.error err =>
      (r.1.eprint [StderrItem.printfV "unable to open notes service: %v\n" err], 1)
    | Except.ok service =>
      -- handle different commands
      dispatch env service r.1 command identifier (inv.Arg 2)

/-! ## Two storage clients to run the program on -/

/-- An object of the in-memory client: where it is, its body and its custom
metadata. -/
structure MemObject where
  bucket : String
  key : String
  body : String
  custom : Option CustomMetadata
deriving DecidableEq, Repr

/-- An upload of the in-memory client that is neither committed nor aborted:
its handle and the object it has gathered so far. -/
structure MemUpload where
  id : Nat
  object : MemObject
deriving DecidableEq, Repr

/-- The state of the in-memory client: the buckets, the committed objects
(newest first, one per bucket and key), the uploads under way and the next
upload handle. -/
structure MemState where
  buckets : List String
  objects : List MemObject
  uploads : List MemUpload
  next : Nat
deriving DecidableEq, Repr

/-- The error of the in-memory client for an upload that is no longer under
way. -/
def errUploadDone : GoError := GoError.lib "upload already done"

/-- The in-memory client changes one upload under way. -/
def MemState.updateUpload (st : MemState) (id : Nat) (f : MemObject → MemObject) :
    MemState × Option GoError :=
  if st.uploads.any (fun u => u.id == id) then
    ({ st with uploads := st.uploads.map (fun u => if u.id == id then ⟨u.id, f u.object⟩ else u) },
      none)
  else (st, some errUploadDone)

/-- The in-memory client commits an upload under way: its object takes the
place of the object of the same bucket and key. -/
def MemState.commit (st : MemState) (id : Nat) : MemState × Option GoError :=
  match st.uploads.find? (fun u => u.id == id) with
  | some u =>
    ({ st with
        objects := u.object ::
          st.objects.filter (fun o => !(o.bucket == u.object.bucket && o.key == u.object.key)),
        uploads := st.uploads.filter (fun v => !(v.id == id)) }, none)
  | none => (st, some errUploadDone)

/-- The in-memory client drops an upload under way. -/
def MemState.abort (st : MemState) (id : Nat) : MemState × Option GoError :=
  if st.uploads.any (fun u => u.id == id) then
    ({ st with uploads := st.uploads.filter (fun v => !(v.id == id)) }, none)
  else (st, some errUploadDone)

/-- The in-memory client starts an upload: the bucket must exist and neither
name may be empty. -/
def MemState.upload (st : MemState) (bucket key : String) : MemState × Except GoError Nat :=
  if bucket = "" then (st, Except.error (GoError.lib "bucket name invalid"))
  else if key = "" then (st, Except.error (GoError.lib "object key invalid"))
  else if ¬ bucket ∈ st.buckets then (st, Except.error (GoError.lib "bucket not found"))
  else
    ({ st with uploads := ⟨st.next, ⟨bucket, key, "", none⟩⟩ :: st.uploads, next := st.next + 1 },
      Except.ok st.next)

/-- The in-memory client starts a download: of the committed object of that
bucket and key. -/
def MemState.download (st : MemState) (bucket key : String) : Except GoError MemObject :=
  match st.objects.find? (fun o => o.bucket == bucket && o.key == key) with
  | some o => Except.ok o
  | none => Except.error (GoError.lib "object not found")

/-- The in-memory client enumerates the committed objects of a bucket whose
key starts with the wanted one, with their custom metadata when asked for. -/
def MemState.list (st : MemState) (bucket : String) (options : ListObjectsOptions) :
    ObjectIterator :=
  ⟨(st.objects.filter (fun o => o.bucket == bucket
      && options.Prefix.data.isPrefixOf o.key.data)).map
      (fun o => ⟨o.key, if options.Custom then o.custom else none⟩), none⟩

/-- An in-memory storage client with the standard semantics: what an upload
commits is what a later download of the same bucket and key returns.  It
fails only for a reason of its own state. -/
def memUplink : Uplink where
  State := MemState
  Access := String
  Project := Unit
  Upload := Nat
  Download := MemObject
  RequestAccessWithPassphrase st satellite apikey passphrase :=
    (st, Except.ok (satellite ++ "/" ++ apikey ++ "/" ++ passphrase))
  ParseAccess st access := (st, Except.ok access)
  OpenProject st _ := (st, Except.ok ())
  EnsureBucket st _ bucket :=
    if bucket = "" then (st, some (GoError.lib "bucket name invalid"))
    else if bucket ∈ st.buckets then (st, none)
    else ({ st with buckets := bucket :: st.buckets }, none)
  UploadObject st _ bucket key := st.upload bucket key
  Write st upload data := st.updateUpload upload (fun o => { o with body := o.body ++ data })
  SetCustomMetadata st upload custom :=
    st.updateUpload upload (fun o => { o with custom := some custom })
  Abort st upload := st.abort upload
  Commit st upload := st.commit upload
  DownloadObject st _ bucket key := (st, st.download bucket key)
  ReadAll st download := (st, Except.ok download.body)
  Info _ download := ⟨download.key, download.custom⟩
  CloseDownload st _ := (st, none)
  ListObjects st _ bucket options := (st, st.list bucket options)
  DeleteObject st _ bucket key :=
    match st.download bucket key with
    | Except.ok _ =>
      ({ st with objects := st.objects.filter (fun o => !(o.bucket == bucket && o.key == key)) },
        none)
    | Except.error err => (st, some err)
  CloseProject st _ := (st, none)

/-- The outcome of the next fallible call of the scripted client: the head of
the script, success once the script is used up. -/
def nextOutcome (script : List (Option GoError)) : List (Option GoError) × Option GoError :=
  (script.tail, script.head?.join)

/-- The scripted client turns an outcome into a result pair around `x`. -/
def asResult {α : Type} (x : α) (r : List (Option GoError) × Option GoError) :
    List (Option GoError) × Except GoError α :=
  (r.1, match r.2 with
    | some err => Except.error err
    | none => Except.ok x)

/-- A storage client that stores nothing and fails as scripted: its state is
the list of the outcomes of its coming fallible calls, `some err` a failure
with `err` and `none` a success.  A download it starts has the empty key and
body. -/
def scriptUplink : Uplink where
  State := List (Option GoError)
  Access := Unit
  Project := Unit
  Upload := Unit
  Download := Unit
  RequestAccessWithPassphrase st _ _ _ := asResult () (nextOutcome st)
  ParseAccess st _ := asResult () (nextOutcome st)
  OpenProject st _ := asResult () (nextOutcome st)
  EnsureBucket st _ _ := nextOutcome st
  UploadObject st _ _ _ := asResult () (nextOutcome st)
  Write st _ _ := nextOutcome st
  SetCustomMetadata st _ _ := nextOutcome st
  Abort st _ := nextOutcome st
  Commit st _ := nextOutcome st
  DownloadObject st _ _ _ := asResult () (nextOutcome st)
  ReadAll st _ := asResult "" (nextOutcome st)
  Info _ _ := ⟨"", none⟩
  CloseDownload st _ := nextOutcome st
  ListObjects st _ _ _ := (st.tail, ⟨[], st.head?.join⟩)
  DeleteObject st _ _ _ := nextOutcome st
  CloseProject st _ := nextOutcome st

/-- A world at the start of a run: the client in state `st`, nothing called
and nothing written. -/
def World.start (U : Uplink) (st : U.State) : World U := ⟨st, [], "", []⟩

/-- A Go runtime for the examples: the clock reads noon of 2 January 2020 UTC,
the local zone is UTC, and the layout-driven parser accepts nothing more than
the strict one. -/
def exampleEnv : TimeEnv where
  now := ⟨2020, 1, 2, 12, 0, 0, 0, 0, "UTC"⟩
  localAbbrev t := if t.offset = 0 then some "UTC" else none
  layoutParse _ := none

/-- An empty in-memory store. -/
def emptyStore : MemState := ⟨[], [], [], 0⟩

/-- The standard semantics of a storage client, as far as a round trip needs
it: once an upload of a bucket and key has been started, written `body`,
given custom metadata and committed, each step without error, a download of
that bucket and key started next succeeds, reads `body` in full, and reports
the key of the upload. -/
def StandardSemantics (U : Uplink) : Prop :=
  ∀ (st : U.State) (project : U.Project) (bucket key body : String) (custom : CustomMetadata)
    (upload : U.Upload),
    let up := U.UploadObject st project bucket key
    let wr := U.Write up.1 upload body
    let md := U.SetCustomMetadata wr.1 upload custom
    let cm := U.Commit md.1 upload
    up.2 = Except.ok upload → wr.2 = none → md.2 = none → cm.2 = none →
    ∃ download,
      let dl := U.DownloadObject cm.1 project bucket key
      let rd := U.ReadAll dl.1 download
      dl.2 = Except.ok download ∧ rd.2 = Except.ok body ∧ (U.Info rd.1 download).Key = key

/-- The call `resolveAccess` makes to the client. -/
def Invocation.accessCall (inv : Invocation) : Call :=
  if inv.hasPassword then
    Call.RequestAccessWithPassphrase (flagValue inv.satellite inv.NOTES_SATELLITE)
      (flagValue inv.apikey inv.NOTES_APIKEY) (flagValue inv.passphrase inv.NOTES_PASSPHRASE)
  else Call.ParseAccess (flagValue inv.access inv.NOTES_ACCESS)

/-- The calls that read, write, enumerate or delete objects: those `Get`,
`Set`, `List` and `Delete` make. -/
def Call.onObjects : Call → Bool
  | Call.UploadObject _ _ => true
  | Call.Write _ => true
  | Call.SetCustomMetadata _ => true
  | Call.Abort => true
  | Call.Commit => true
  | Call.DownloadObject _ _ => true
  | Call.ReadAll => true
  | Call.CloseDownload => true
  | Call.ListObjects _ _ => true
  | Call.DeleteObject _ _ => true
  | _ => false

/-- The credentials are missing: the access grant is empty and so is one of
passphrase, API key and satellite. -/
def Invocation.credentialsMissing (inv : Invocation) : Prop :=
  flagValue inv.access inv.NOTES_ACCESS = ""
    ∧ (flagValue inv.passphrase inv.NOTES_PASSPHRASE = ""
      ∨ flagValue inv.apikey inv.NOTES_APIKEY = ""
      ∨ flagValue inv.satellite inv.NOTES_SATELLITE = "")

instance (inv : Invocation) : Decidable inv.credentialsMissing := by
  unfold Invocation.credentialsMissing
  exact inferInstance

/-- An invocation with the access grant `grant` in the environment, no flags,
and the positional arguments `args`. -/
def withGrant (args : List String) : Invocation :=
  ⟨"", "", "", "grant", "", none, none, none, none, none, args⟩

/-- The text of the given lines, each followed by a line terminator. -/
def textOfLines : List String → String
  | [] => ""
  | line :: rest => line ++ "\n" ++ textOfLines rest

/-- The in-memory store after `set todo "buy milk"` at the clock reading of
`exampleEnv`. -/
def todoStore : MemState :=
  ⟨["notes"], [⟨"notes", "todo", "buy milk", some [(uploadTime, "2020-01-02T12:00:00Z")]⟩], [], 1⟩

/-- A time as `time.Now()` gives it: a year of at most four digits, a date of
the calendar, a clock reading without a leap second, and a zone offset of less
than a day that is zero or at least a minute. -/
def Time.Civil (t : Time) : Prop :=
  t.year ≤ 9999 ∧ 1 ≤ t.month ∧ t.month ≤ 12 ∧ 1 ≤ t.day ∧ t.day ≤ daysIn t.month t.year
    ∧ t.hour ≤ 23 ∧ t.minute ≤ 59 ∧ t.second ≤ 59
    ∧ t.offset.natAbs < 86400 ∧ (t.offset = 0 ∨ 60 ≤ t.offset.natAbs)

instance (t : Time) : Decidable t.Civil := by
  unfold Time.Civil
  exact inferInstance

/-- A time as the strict RFC 3339 parser reads it back from the encoding of
`t`: the whole second of `t`, the offset of `t` in whole minutes, and the
zone the parser finds for that offset. -/
def Time.reread (env : TimeEnv) (t : Time) : Time :=
  if t.offset = 0 then { t with nsec := 0, zone := "UTC" }
  else
    let u : Time := { t with nsec := 0, offset := Int.tdiv t.offset 60 * 60, zone := "" }
    match env.localAbbrev u with
    | some name => { u with zone := name }
    | none => u

/-- The function `getnum` of package `time`: a number of one or two digits at
the head of `s` and the rest of `s`; `fixed` demands two digits. -/
def getnum (s : List Char) (fixed : Bool) : Option (Nat × List Char) :=
  match s with
  | a :: rest =>
    if a.isDigit then
      match rest with
      | b :: rest2 =>
        if b.isDigit then some ((a.toNat - 48) * 10 + (b.toNat - 48), rest2)
        else if fixed then none else some (a.toNat - 48, rest)
      | [] => if fixed then none else some (a.toNat - 48, rest)
    else none
  | [] => none

/-- The function `skip` of package `time` for a layout text of the one
character `c`, which is not a blank: `value` without `c` at its head. -/
def skipChar (value : List Char) (c : Char) : Option (List Char) :=
  match value with
  | a :: rest => if a = c then some rest else none
  | [] => none

/-- The zone element `Z07:00` of the layout-driven parser: `Z` for UTC, else a
sign, two digits, a colon and two digits, with hours up to 24 and minutes up
to 60.  The result is the offset in seconds (`none` for `Z`) and the rest. -/
def parseLayoutZone (value : List Char) : Option (Option Int × List Char) :=
  if value.head? = some 'Z' then some (none, value.drop 1)
  else if value.length < 6 then none
  else if value[3]? ≠ some ':' then none
  else
    match getnum (slice value 1 3) true, getnum (slice value 4 6) true with
    | some (hr, _), some (mm, _) =>
      if 24 < hr ∨ 60 < mm then none
      else if value[0]? = some '+' then some (some (((hr * 60 + mm) * 60 : Nat) : Int), value.drop 6)
      else if value[0]? = some '-' then
        some (some (-(((hr * 60 + mm) * 60 : Nat) : Int)), value.drop 6)
      else none
    | _, _ => none

/-- The layout-driven parser `parse(time.RFC3339, value, UTC, Local)` of
package `time`, element by element of the layout
`2006-01-02T15:04:05Z07:00`: a four-digit year, two-digit month and day, an
hour of one or two digits, two-digit minute and second, a fractional second
after a point or a comma although the layout has none, and the zone; the day
is checked against the month at the end.  `localAbbrev` is as in `TimeEnv`. -/
def parseLayoutRFC3339 (localAbbrev : Time → Option String) (value : List Char) :
    Option Time :=
  if value.length < 4 ∨ ¬ (value.take 4).all Char.isDigit then none else
  let year := (value.take 4).foldl (fun x c => x * 10 + (c.toNat - 48)) 0
  match (skipChar (value.drop 4) '-').bind (fun v => getnum v true) with
  | none => none
  | some (month, value) =>
  if month = 0 ∨ 12 < month then none else
  match (skipChar value '-').bind (fun v => getnum v true) with
  | none => none
  | some (day, value) =>
  match (skipChar value 'T').bind (fun v => getnum v false) with
  | none => none
  | some (hour, value) =>
  if 24 ≤ hour then none else
  match (skipChar value ':').bind (fun v => getnum v true) with
  | none => none
  | some (min, value) =>
  if 60 ≤ min then none else
  match (skipChar value ':').bind (fun v => getnum v true) with
  | none => none
  | some (sec, value) =>
  if 60 ≤ sec then none else
  -- a fractional second in the input but not in the layout
  let frac := value.length ≥ 2 ∧ (value[0]? = some '.' ∨ value[0]? = some ',')
    ∧ (value.drop 1).head?.any Char.isDigit
  let n := if frac then 1 + ((value.drop 1).takeWhile Char.isDigit).length else 0
  let nsec := if frac then parseNanoseconds (value.take n) else 0
  match parseLayoutZone (value.drop n) with
  | none => none
  | some (zone, value) =>
  if value ≠ [] then none
  else if day < 1 ∨ daysIn month year < day then none
  else
    match zone with
    | none => some ⟨year, month, day, hour, min, sec, nsec, 0, "UTC"⟩
    | some zoneOffset =>
      let t : Time := ⟨year, month, day, hour, min, sec, nsec, zoneOffset, ""⟩
      match localAbbrev t with
      | some name => some { t with zone := name }
      | none => some t

/-- The Go runtime of the examples with the layout-driven parser of package
`time` in the place of the parser that accepts nothing. -/
def goEnv : TimeEnv where
  now := exampleEnv.now
  localAbbrev := exampleEnv.localAbbrev
  layoutParse value := parseLayoutRFC3339 exampleEnv.localAbbrev value.data

/-- The fraction `time-secfrac` of RFC 3339 at the head of `s`, if any,
dropped: a point and one digit or more. -/
def dropSecfrac (s : List Char) : Option (List Char) :=
  match s with
  | '.' :: rest =>
    if (rest.takeWhile Char.isDigit).length = 0 then none
    else some (rest.dropWhile Char.isDigit)
  | _ => some s

/-- The grammar of RFC 3339, section 5.6: `s` is a `date-time`, which is a
four-digit year, two-digit month and day of that month, `T`, two-digit hour,
minute and second (60 for a leap second), an optional fraction, and `Z` or an
offset of two-digit hours and minutes; `t` and `z` may be lower case. -/
def validRFC3339 (s : List Char) : Bool :=
  decide (19 ≤ s.length)
  && (match parseUint (slice s 0 4) 0 9999, parseUint (slice s 5 7) 1 12 with
      | some year, some month => (parseUint (slice s 8 10) 1 (daysIn month year)).isSome
      | _, _ => false)
  && (parseUint (slice s 11 13) 0 23).isSome
  && (parseUint (slice s 14 16) 0 59).isSome
  && (parseUint (slice s 17 19) 0 60).isSome
  && decide (s[4]? = some '-' ∧ s[7]? = some '-' ∧ (s[10]? = some 'T' ∨ s[10]? = some 't')
      ∧ s[13]? = some ':' ∧ s[16]? = some ':')
  && (match dropSecfrac (s.drop 19) with
      | none => false
      | some z =>
        decide (z = ['Z'] ∨ z = ['z'])
        || (decide (z.length = 6)
          && decide ((z[0]? = some '+' ∨ z[0]? = some '-') ∧ z[3]? = some ':')
          && (parseUint (slice z 1 3) 0 23).isSome
          && (parseUint (slice z 4 6) 0 59).isSome))

/-! ## Properties of the embedding -/

/-- The note metadata `ParseNoteMeta` returns does not depend on what the
standard error stream held. -/
theorem ParseNoteMeta_fst (env : TimeEnv) (info : Object) (stderr : List StderrItem) :
    (ParseNoteMeta env info stderr).1 = (ParseNoteMeta env info []).1 := by
  unfold ParseNoteMeta
  cases h : info.Custom with
  | none => rfl
  | some custom =>
    cases hk : custom.lookup uploadTime with
    | none => simp [hk]
    | some s => cases hp : timeParse env s <;> simp [hk, hp]

/-- The loop of `List` appends to `notes` the metadata of each object, in
order. -/
theorem listLoop_fst (env : TimeEnv) (items : List Object) (notes : List NoteMeta)
    (stderr : List StderrItem) :
    (listLoop env items notes stderr).1
      = notes ++ items.map (fun info => (ParseNoteMeta env info []).1) := by
  induction items generalizing notes stderr with
  | nil => simp [listLoop]
  | cons info rest ih =>
    simp only [listLoop, ih, List.map_cons, List.append_assoc, List.singleton_append]
    rw [ParseNoteMeta_fst]

/-- C2, as the code has it. For every object info whose custom metadata is
nil, lacks the key `notes:upload-time`, or holds under that key a string that
`time.Parse` with the RFC 3339 layout rejects, `ParseNoteMeta` returns a
`NoteMeta` whose `Identifier` is `info.Key` and whose `Uploaded` is the zero
time. -/
theorem ParseNoteMeta_absent (env : TimeEnv) (info : Object) (stderr : List StderrItem)
    (h : info.Custom = none
      ∨ (∃ custom, info.Custom = some custom ∧ custom.lookup uploadTime = none)
      ∨ (∃ custom s, info.Custom = some custom ∧ custom.lookup uploadTime = some s
          ∧ timeParse env s = none)) :
    (ParseNoteMeta env info stderr).1.Identifier = info.Key
      ∧ (ParseNoteMeta env info stderr).1.Uploaded = Time.zero := by
  unfold ParseNoteMeta
  rcases h with h | ⟨custom, h, hk⟩ | ⟨custom, s, h, hk, hp⟩
  · simp [h]
  · simp [h, hk]
  · simp [h, hk, hp]

/-- C2 as stated fails: `2020-01-01T1:00:00Z`, with its one-digit hour, is no
timestamp of RFC 3339, and the strict parser rejects it, yet `time.Parse`
with the RFC 3339 layout reads it through the layout-driven parser, and
`ParseNoteMeta` returns one o'clock of 1 January 2020, not the zero time. -/
theorem lenient_hour_is_parsed :
    validRFC3339 "2020-01-01T1:00:00Z".data = false
    ∧ parseRFC3339 goEnv "2020-01-01T1:00:00Z".data = none
    ∧ (ParseNoteMeta goEnv ⟨"todo", some [(uploadTime, "2020-01-01T1:00:00Z")]⟩ []).1.Uploaded
      = ⟨2020, 1, 1, 1, 0, 0, 0, 0, "UTC"⟩
    ∧ (ParseNoteMeta goEnv ⟨"todo", some [(uploadTime, "2020-01-01T1:00:00Z")]⟩ []).1.Uploaded
      ≠ Time.zero := by
  decide

/-- C2, as the code has it, at three objects: no custom metadata, custom
metadata without the key, and a value under the key that both parsers of
`time.Parse` reject. -/
theorem ParseNoteMeta_absent_witness :
    ((ParseNoteMeta goEnv ⟨"todo", none⟩ []).1.Identifier = "todo"
      ∧ (ParseNoteMeta goEnv ⟨"todo", none⟩ []).1.Uploaded = Time.zero)
    ∧ ((ParseNoteMeta goEnv ⟨"todo", some [("colour", "red")]⟩ []).1.Identifier = "todo"
      ∧ (ParseNoteMeta goEnv ⟨"todo", some [("colour", "red")]⟩ []).1.Uploaded = Time.zero)
    ∧ ((ParseNoteMeta goEnv ⟨"todo", some [(uploadTime, "yesterday")]⟩ []).1.Identifier
        = "todo"
      ∧ (ParseNoteMeta goEnv ⟨"todo", some [(uploadTime, "yesterday")]⟩ []).1.Uploaded
        = Time.zero) :=
  ⟨ParseNoteMeta_absent goEnv ⟨"todo", none⟩ [] (Or.inl rfl),
    ParseNoteMeta_absent goEnv ⟨"todo", some [("colour", "red")]⟩ []
      (Or.inr (Or.inl ⟨_, rfl, by decide⟩)),
    ParseNoteMeta_absent goEnv ⟨"todo", some [(uploadTime, "yesterday")]⟩ []
      (Or.inr (Or.inr ⟨_, "yesterday", rfl, by decide, by decide⟩))⟩

/-- C5. For every prefix and every finite enumeration the client gives: when
the enumeration ended with an error, `List` returns the nil slice and an error
wrapping it, whatever was yielded before; when it ended without error, `List`
returns no error and `ParseNoteMeta` of each yielded object, in the order the
client yielded them. -/
theorem List_all_or_nothing {U : Uplink} (service : Service U) (env : TimeEnv) (w : World U)
    (pfx : String) :
    (service.List env w pfx).2
      = match (U.ListObjects w.uplink service.project service.bucket ⟨pfx, true, true⟩).2.err with
        | some err => ([], some (GoError.errorf "iteration failed (prefix=%q): %w" pfx err))
        | none =>
          ((U.ListObjects w.uplink service.project service.bucket ⟨pfx, true, true⟩).2.items.map
            (fun info => (ParseNoteMeta env info []).1), none) := by
  unfold Service.List
  cases h : (U.ListObjects w.uplink service.project service.bucket ⟨pfx, true, true⟩).2.err with
  | none => simp [h, listLoop_fst]
  | some err => simp [h]

/-- C4. Once `UploadObject` has given the upload: when `Write` fails, or
`Write` succeeds and `SetCustomMetadata` fails, `Set` calls `Abort` once, on
the state the failed step left, and `Commit` never: the client is left in the
state `Abort` returns, and the error `Set` returns wraps the failure, with
whatever `Abort` returned as its last operand.  When both succeed and `Commit`
fails, `Set` does not call `Abort`, leaves the client as `Commit` left it and
returns the commit error wrapped.  And `Set` returns nil only when `Write`,
`SetCustomMetadata` and `Commit` all succeeded, `Commit` called once. -/
theorem Set_abort_then_report {U : Uplink} (service : Service U) (env : TimeEnv) (w : World U)
    (identifier value : String) (upload : U.Upload)
    (hup : (U.UploadObject w.uplink service.project service.bucket identifier).2
      = Except.ok upload) :
    let st := (U.UploadObject w.uplink service.project service.bucket identifier).1
    let wr := U.Write st upload value
    let md := U.SetCustomMetadata wr.1 upload [(uploadTime, formatRFC3339 env.now)]
    let cm := U.Commit md.1 upload
    let out := service.Set env w identifier value
    (∀ err, wr.2 = some err →
      out.1.uplink = (U.Abort wr.1 upload).1
      ∧ out.2 = some (GoError.errorfV "failed to upload %q: %w, %v" identifier err
          (U.Abort wr.1 upload).2)
      ∧ out.1.calls = w.calls ++ [Call.UploadObject service.bucket identifier,
          Call.Write value, Call.Abort])
    ∧ (∀ err, wr.2 = none → md.2 = some err →
      out.1.uplink = (U.Abort md.1 upload).1
      ∧ out.2 = some (GoError.errorfV "failed to set metadata %q: %w, %v" identifier err
          (U.Abort md.1 upload).2)
      ∧ out.1.calls = w.calls ++ [Call.UploadObject service.bucket identifier,
          Call.Write value, Call.SetCustomMetadata [(uploadTime, formatRFC3339 env.now)],
          Call.Abort])
    ∧ (∀ err, wr.2 = some err ∨ (wr.2 = none ∧ md.2 = some err) →
      out.1.calls.count Call.Abort = w.calls.count Call.Abort + 1
      ∧ out.1.calls.count Call.Commit = w.calls.count Call.Commit
      ∧ ∃ e, out.2 = some e ∧ e.Unwrap = some err)
    ∧ (∀ err, wr.2 = none → md.2 = none → cm.2 = some err →
      out.1.uplink = cm.1
      ∧ out.1.calls.count Call.Abort = w.calls.count Call.Abort
      ∧ out.2 = some (GoError.errorf "failed commit %q: %w" identifier err))
    ∧ (out.2 = none →
      wr.2 = none ∧ md.2 = none ∧ cm.2 = none
      ∧ out.1.uplink = cm.1
      ∧ out.1.calls.count Call.Commit = w.calls.count Call.Commit + 1
      ∧ out.1.calls.count Call.Abort = w.calls.count Call.Abort) := by
  intro st wr md cm out
  have hout : out = service.Set env w identifier value := rfl
  unfold Service.Set at hout
  simp only [hup, World.call, World.setUplink] at hout
  rcases hwr : wr.2 with _ | e1
  · rcases hmd : md.2 with _ | e2
    · rcases hcm : cm.2 with _ | e3
      · have hwr1 := hwr
        have hmd1 := hmd
        have hcm1 := hcm
        simp only [wr, md, cm, st] at hwr1 hmd1 hcm1
        simp only [hwr1, hmd1, hcm1] at hout
        simp [hout, List.count_append, cm, md, wr, st]
      · have hwr1 := hwr
        have hmd1 := hmd
        have hcm1 := hcm
        simp only [wr, md, cm, st] at hwr1 hmd1 hcm1
        simp only [hwr1, hmd1, hcm1] at hout
        simp [hout, List.count_append, cm, md, wr, st]
    · have hwr1 := hwr
      have hmd1 := hmd
      simp only [wr, md, st] at hwr1 hmd1
      simp only [hwr1, hmd1] at hout
      simp [hout, List.count_append, GoError.errorfV, md, wr, st]
      cases (U.Abort md.1 upload).2 <;> simp [GoError.Unwrap]
  · have hwr1 := hwr
    simp only [wr, st] at hwr1
    simp only [hwr1] at hout
    simp [hout, List.count_append, GoError.errorfV, wr, st]
    cases (U.Abort wr.1 upload).2 <;> simp [GoError.Unwrap]

/-- C4 on the scripted client: the upload starts, `Write` fails and `Abort`
fails too; `Set` has called `Abort`, which used up the script, and never
`Commit`, and its error wraps the write error and carries the abort error. -/
theorem Set_abort_then_report_witness :
    ((⟨(), "notes"⟩ : Service scriptUplink).Set exampleEnv
        (World.start scriptUplink
          [none, some (GoError.lib "write failed"), some (GoError.lib "abort failed")])
        "todo" "buy milk").1.uplink = []
    ∧ ((⟨(), "notes"⟩ : Service scriptUplink).Set exampleEnv
        (World.start scriptUplink
          [none, some (GoError.lib "write failed"), some (GoError.lib "abort failed")])
        "todo" "buy milk").2
      = some (GoError.errorfErr "failed to upload %q: %w, %v" "todo"
          (GoError.lib "write failed") (GoError.lib "abort failed"))
    ∧ ((⟨(), "notes"⟩ : Service scriptUplink).Set exampleEnv
        (World.start scriptUplink
          [none, some (GoError.lib "write failed"), some (GoError.lib "abort failed")])
        "todo" "buy milk").1.calls
      = [] ++ [Call.UploadObject "notes" "todo", Call.Write "buy milk", Call.Abort] :=
  (Set_abort_then_report (⟨(), "notes"⟩ : Service scriptUplink) exampleEnv
    (World.start scriptUplink
      [none, some (GoError.lib "write failed"), some (GoError.lib "abort failed")])
    "todo" "buy milk" () rfl).1 (GoError.lib "write failed") rfl

/-- The identifier `ParseNoteMeta` returns is the key of the object. -/
theorem ParseNoteMeta_Identifier (env : TimeEnv) (info : Object) (stderr : List StderrItem) :
    (ParseNoteMeta env info stderr).1.Identifier = info.Key := by
  unfold ParseNoteMeta
  cases h : info.Custom with
  | none => rfl
  | some custom =>
    cases hk : custom.lookup uploadTime with
    | none => simp [hk]
    | some s => cases hp : timeParse env s <;> simp [hk, hp]

/-- When `Set` returns nil, the client has started the upload, taken the value
in one write, taken the upload time as custom metadata and committed, in the
state `Set` leaves. -/
theorem Set_ok_steps {U : Uplink} (service : Service U) (env : TimeEnv) (w : World U)
    (identifier value : String) (hset : (service.Set env w identifier value).2 = none) :
    ∃ upload,
      (U.UploadObject w.uplink service.project service.bucket identifier).2 = Except.ok upload
      ∧ (U.Write (U.UploadObject w.uplink service.project service.bucket identifier).1
          upload value).2 = none
      ∧ (U.SetCustomMetadata (U.Write (U.UploadObject w.uplink service.project service.bucket
          identifier).1 upload value).1 upload [(uploadTime, formatRFC3339 env.now)]).2 = none
      ∧ (U.Commit (U.SetCustomMetadata (U.Write (U.UploadObject w.uplink service.project
          service.bucket identifier).1 upload value).1 upload
          [(uploadTime, formatRFC3339 env.now)]).1 upload).2 = none
      ∧ (service.Set env w identifier value).1.uplink
        = (U.Commit (U.SetCustomMetadata (U.Write (U.UploadObject w.uplink service.project
          service.bucket identifier).1 upload value).1 upload
          [(uploadTime, formatRFC3339 env.now)]).1 upload).1 := by
  unfold Service.Set at hset ⊢
  simp only [World.call, World.setUplink] at hset ⊢
  rcases hup : (U.UploadObject w.uplink service.project service.bucket identifier).2
    with e0 | upload
  · simp [hup] at hset
  · simp only [hup] at hset ⊢
    refine ⟨upload, rfl, ?_⟩
    rcases hwr : (U.Write (U.UploadObject w.uplink service.project service.bucket
      identifier).1 upload value).2 with _ | e1
    · simp only [hwr] at hset ⊢
      rcases hmd : (U.SetCustomMetadata (U.Write (U.UploadObject w.uplink service.project
        service.bucket identifier).1 upload value).1 upload
        [(uploadTime, formatRFC3339 env.now)]).2 with _ | e2
      · simp only [hmd] at hset ⊢
        rcases hcm : (U.Commit (U.SetCustomMetadata (U.Write (U.UploadObject w.uplink
          service.project service.bucket identifier).1 upload value).1 upload
          [(uploadTime, formatRFC3339 env.now)]).1 upload).2 with _ | e3
        · simp [hcm]
        · simp [hcm] at hset
      · simp [hmd] at hset
    · simp [hwr] at hset

/-- C1. Over a storage client with the standard semantics: for every
identifier `i` and value `v`, when `Set(i, v)` returns nil, the `Get(i)` that
follows returns nil and a note whose `Message` is `v` and whose `Identifier`
is `i`. -/
theorem Set_Get_roundtrip {U : Uplink} (hU : StandardSemantics U) (service : Service U)
    (env : TimeEnv) (w : World U) (i v : String)
    (hset : (service.Set env w i v).2 = none) :
    ∃ note, (service.Get env (service.Set env w i v).1 i).2 = Except.ok note
      ∧ note.Message = v ∧ note.toNoteMeta.Identifier = i := by
  obtain ⟨upload, hup, hwr, hmd, hcm, hst⟩ := Set_ok_steps service env w i v hset
  obtain ⟨download, hdl, hrd, hinfo⟩ :=
    hU w.uplink service.project service.bucket i v [(uploadTime, formatRFC3339 env.now)] upload
      hup hwr hmd hcm
  unfold Service.Get
  simp only [World.call, World.setUplink, hst, hdl, hrd, closeDownload, ParseNote]
  refine ⟨_, rfl, rfl, ?_⟩
  rw [ParseNoteMeta_Identifier, hinfo]

/-- The in-memory client has the standard semantics. -/
theorem memUplink_standard : StandardSemantics memUplink := by
  intro st project bucket key body custom upload up wr md cm hup hwr hmd hcm
  have hup1 : up = st.upload bucket key := rfl
  unfold MemState.upload at hup1
  by_cases hb : bucket = ""
  · simp [hup1, hb] at hup
  by_cases hk : key = ""
  · simp [hup1, hb, hk] at hup
  by_cases hin : bucket ∈ st.buckets
  swap
  · simp [hup1, hb, hk, hin] at hup
  simp only [hb, hk, hin, not_true_eq_false, if_false] at hup1
  have hid : upload = st.next := by
    rw [hup1] at hup
    simpa using hup.symm
  subst hid
  have hwr1 : wr.1 = { st with
      uploads := ⟨st.next, ⟨bucket, key, body, none⟩⟩ ::
        st.uploads.map (fun u => if u.id == st.next then
          ⟨u.id, { u.object with body := u.object.body ++ body }⟩ else u),
      next := st.next + 1 } := by
    simp [wr, hup1, memUplink, MemState.updateUpload]
  have hmd1 : md.1 = { st with
      uploads := ⟨st.next, ⟨bucket, key, body, some custom⟩⟩ ::
        (st.uploads.map (fun u => if u.id == st.next then
          ⟨u.id, { u.object with body := u.object.body ++ body }⟩ else u)).map
          (fun u => if u.id == st.next then
            ⟨u.id, { u.object with custom := some custom }⟩ else u),
      next := st.next + 1 } := by
    simp [md, hwr1, memUplink, MemState.updateUpload]
  have hcm1 : cm.1.objects = ⟨bucket, key, body, some custom⟩ ::
      st.objects.filter (fun o => !(o.bucket == bucket && o.key == key)) := by
    simp [cm, hmd1, memUplink, MemState.commit]
  refine ⟨⟨bucket, key, body, some custom⟩, ?_, ?_, ?_⟩
  · simp [memUplink, MemState.download, hcm1]
  · simp [memUplink]
  · simp [memUplink]

/-- C1 on the in-memory client: `Set("todo", "buy milk")` into the bucket
`notes` returns nil, and `Get("todo")` then returns the note. -/
theorem Set_Get_roundtrip_witness :
    ((⟨(), "notes"⟩ : Service memUplink).Set exampleEnv
        (World.start memUplink ⟨["notes"], [], [], 0⟩) "todo" "buy milk").2 = none
    ∧ ∃ note, ((⟨(), "notes"⟩ : Service memUplink).Get exampleEnv
        ((⟨(), "notes"⟩ : Service memUplink).Set exampleEnv
          (World.start memUplink ⟨["notes"], [], [], 0⟩) "todo" "buy milk").1 "todo").2
          = Except.ok note
      ∧ note.Message = "buy milk" ∧ note.toNoteMeta.Identifier = "todo" :=
  ⟨by decide, Set_Get_roundtrip memUplink_standard (⟨(), "notes"⟩ : Service memUplink) exampleEnv
    (World.start memUplink ⟨["notes"], [], [], 0⟩) "todo" "buy milk" (by decide)⟩

/-- The credentials are missing exactly when `main` finds neither
`hasPassword` nor `hasAccess`. -/
theorem credentialsMissing_iff (inv : Invocation) :
    inv.credentialsMissing ↔ (!inv.hasPassword && !inv.hasAccess) = true := by
  unfold Invocation.credentialsMissing Invocation.hasPassword Invocation.hasAccess
  simp only [bne_iff_ne, ne_eq, Bool.and_eq_true, Bool.not_eq_true', Bool.and_eq_false_iff,
    bne_eq_false_iff_eq, Bool.not_and, Bool.or_eq_true]
  tauto

/-- C8. For every invocation in which the credentials are missing or the
first positional argument is empty, `main` ends with status 1, has written the
usage text to the standard error stream and nothing to the standard output,
and has made no call to the storage client: no access resolution, no service
open, no get, set, list or delete. -/
theorem main_usage_error (U : Uplink) (env : TimeEnv) (inv : Invocation) (w : World U)
    (h : inv.credentialsMissing ∨ inv.Arg 0 = "") :
    (main U env inv w).2 = 1
      ∧ (∃ items, (main U env inv w).1.stderr = w.stderr ++ items ∧ StderrItem.usage ∈ items)
      ∧ (main U env inv w).1.stdout = w.stdout
      ∧ (main U env inv w).1.calls = w.calls
      ∧ (main U env inv w).1.uplink = w.uplink := by
  unfold main
  by_cases hc : (!inv.hasPassword && !inv.hasAccess) = true
  · rw [if_pos hc]
    exact ⟨rfl, ⟨_, rfl, by simp⟩, rfl, rfl, rfl⟩
  · have hcmd : inv.Arg 0 = "" := by
      rcases h with h | h
      · exact absurd ((credentialsMissing_iff inv).1 h) hc
      · exact h
    rw [if_neg hc, if_pos hcmd]
    exact ⟨rfl, ⟨_, rfl, by simp⟩, rfl, rfl, rfl⟩

/-- C8 at two invocations: no credentials at all with the command `get`, and
an access grant with no command. -/
theorem main_usage_error_witness :
    ((main memUplink exampleEnv
        ⟨"", "", "", "", "", none, none, none, none, none, ["get", "todo"]⟩
        (World.start memUplink emptyStore)).2 = 1
      ∧ (main memUplink exampleEnv
        ⟨"", "", "", "", "", none, none, none, none, none, ["get", "todo"]⟩
        (World.start memUplink emptyStore)).1.calls = [])
    ∧ ((main memUplink exampleEnv (withGrant []) (World.start memUplink emptyStore)).2 = 1
      ∧ (main memUplink exampleEnv (withGrant []) (World.start memUplink emptyStore)).1.calls
        = []) :=
  ⟨⟨(main_usage_error memUplink exampleEnv
      ⟨"", "", "", "", "", none, none, none, none, none, ["get", "todo"]⟩
      (World.start memUplink emptyStore) (Or.inl (by decide))).1,
    (main_usage_error memUplink exampleEnv
      ⟨"", "", "", "", "", none, none, none, none, none, ["get", "todo"]⟩
      (World.start memUplink emptyStore) (Or.inl (by decide))).2.2.2.1⟩,
   ⟨(main_usage_error memUplink exampleEnv (withGrant []) (World.start memUplink emptyStore)
      (Or.inr (by decide))).1,
    (main_usage_error memUplink exampleEnv (withGrant []) (World.start memUplink emptyStore)
      (Or.inr (by decide))).2.2.2.1⟩⟩

/-- What `resolveAccess` does to the world: one call, the access call, and
nothing written. -/
theorem resolveAccess_world (U : Uplink) (inv : Invocation) (w : World U) :
    (resolveAccess U inv w).1.calls = w.calls ++ [inv.accessCall]
      ∧ (resolveAccess U inv w).1.stdout = w.stdout
      ∧ (resolveAccess U inv w).1.stderr = w.stderr := by
  unfold resolveAccess Invocation.accessCall
  by_cases h : inv.hasPassword = true
  · simp [h, World.call, World.setUplink]
  · simp [h, World.call, World.setUplink]

/-- What `Open` does to the world: it calls `OpenProject`, then at most
`EnsureBucket`, and writes nothing. -/
theorem Open_world (U : Uplink) (w : World U) (access : U.Access) (bucket : String) :
    (∃ rest, (Open U w access bucket).1.calls = w.calls ++ Call.OpenProject :: rest
        ∧ ∀ c ∈ rest, c = Call.EnsureBucket bucket)
      ∧ (Open U w access bucket).1.stdout = w.stdout
      ∧ (Open U w access bucket).1.stderr = w.stderr := by
  unfold Open
  simp only [World.call, World.setUplink]
  rcases h : (U.OpenProject w.uplink access).2 with err | project
  · exact ⟨⟨[], by simp, by simp⟩, rfl, rfl⟩
  · simp only
    rcases h2 : (U.EnsureBucket (U.OpenProject w.uplink access).1 project bucket).2 with _ | err
    · exact ⟨⟨[Call.EnsureBucket bucket], by simp, by simp⟩, rfl, rfl⟩
    · exact ⟨⟨[Call.EnsureBucket bucket], by simp, by simp⟩, rfl, rfl⟩

/-- The switch of `main` on a command that is none of the four: status 1 and
the world as it was. -/
theorem dispatch_default {U : Uplink} (env : TimeEnv) (service : Service U) (w : World U)
    (command identifier value : String) (h1 : command ≠ "get") (h2 : command ≠ "set")
    (h3 : command ≠ "list") (h4 : command ≠ "delete") :
    dispatch env service w command identifier value = (w, 1) := by
  unfold dispatch
  simp [h1, h2, h3, h4]

/-- C9, as the code has it. For every invocation with credentials whose first
positional argument is not empty and none of `get`, `set`, `list`, `delete`:
`main` first resolves the access, and opens the service when that succeeds;
it ends with status 1 in every case, without writing the usage text, without
writing to the standard output, and without any call on objects. -/
theorem main_unknown_command (U : Uplink) (env : TimeEnv) (inv : Invocation) (w : World U)
    (hcred : ¬ inv.credentialsMissing) (h0 : inv.Arg 0 ≠ "") (h1 : inv.Arg 0 ≠ "get")
    (h2 : inv.Arg 0 ≠ "set") (h3 : inv.Arg 0 ≠ "list") (h4 : inv.Arg 0 ≠ "delete") :
    (main U env inv w).2 = 1
      ∧ (∃ rest, (main U env inv w).1.calls = w.calls ++ inv.accessCall :: rest
          ∧ (∀ access, (resolveAccess U inv w).2 = Except.ok access → Call.OpenProject ∈ rest)
          ∧ ∀ c ∈ rest, c.onObjects = false)
      ∧ (∃ items, (main U env inv w).1.stderr = w.stderr ++ items ∧ StderrItem.usage ∉ items)
      ∧ (main U env inv w).1.stdout = w.stdout := by
  have hc : ¬ (!inv.hasPassword && !inv.hasAccess) = true :=
    fun h => hcred ((credentialsMissing_iff inv).2 h)
  obtain ⟨hrc, hro, hre⟩ := resolveAccess_world U inv w
  unfold main
  rw [if_neg hc, if_neg h0]
  rcases hacc : (resolveAccess U inv w).2 with err | access
  · simp only [hacc, World.eprint]
    refine ⟨trivial, ⟨[], by simp [hrc], by simp, by simp⟩, ⟨_, by rw [hre], by simp⟩, hro⟩
  · simp only [hacc]
    obtain ⟨⟨rest, hoc, hrest⟩, hoo, hoe⟩ := Open_world U (resolveAccess U inv w).1 access
      inv.bucketName
    have hobj : ∀ c ∈ Call.OpenProject :: rest, c.onObjects = false := by
      intro c hcm
      rcases List.mem_cons.1 hcm with h | h
      · rw [h]; rfl
      · rw [hrest c h]; rfl
    rcases hopen : (Open U (resolveAccess U inv w).1 access inv.bucketName).2 with err | service
    · simp only [hopen, World.eprint]
      refine ⟨trivial, ⟨Call.OpenProject :: rest, by simp [hoc, hrc], by simp, hobj⟩,
        ⟨_, by rw [hoe, hre], by simp⟩, by rw [hoo, hro]⟩
    · simp only [hopen, dispatch_default env service _ _ _ _ h1 h2 h3 h4]
      refine ⟨trivial, ⟨Call.OpenProject :: rest, by simp [hoc, hrc], by simp, hobj⟩,
        ⟨[], by simp [hoe, hre], by simp⟩, by rw [hoo, hro]⟩

/-- C9 as stated fails: with an access grant and the command `frob`, `main`
resolves the access, opens the project and ensures the bucket before it ends,
and writes nothing at all, the usage text included. -/
theorem main_unknown_command_opens_service :
    (main memUplink exampleEnv (withGrant ["frob", "todo"])
        (World.start memUplink emptyStore)).1.calls
      = [Call.ParseAccess "grant", Call.OpenProject, Call.EnsureBucket "notes"]
    ∧ (main memUplink exampleEnv (withGrant ["frob", "todo"])
        (World.start memUplink emptyStore)).1.stderr = []
    ∧ (main memUplink exampleEnv (withGrant ["frob", "todo"])
        (World.start memUplink emptyStore)).2 = 1 := by
  decide

/-- C9, as the code has it, at the command `frob` with an access grant. -/
theorem main_unknown_command_witness :
    (main memUplink exampleEnv (withGrant ["frob", "todo"])
        (World.start memUplink emptyStore)).2 = 1
    ∧ (main memUplink exampleEnv (withGrant ["frob", "todo"])
        (World.start memUplink emptyStore)).1.stdout = "" :=
  ⟨(main_unknown_command memUplink exampleEnv (withGrant ["frob", "todo"])
      (World.start memUplink emptyStore) (by decide) (by decide) (by decide) (by decide)
      (by decide) (by decide)).1,
    (main_unknown_command memUplink exampleEnv (withGrant ["frob", "todo"])
      (World.start memUplink emptyStore) (by decide) (by decide) (by decide) (by decide)
      (by decide) (by decide)).2.2.2⟩

/-- C10 fails on the code. With an access grant, `OpenProject` succeeding:
(1) `get` of a note that is not there ends the process with status 1 and
`CloseProject` was never called; (2) so does a command that is none of the
four; (3) `Open` with a bucket name the client refuses returns an error after
`OpenProject` succeeded, the project not closed. (4) Only a command that
succeeds closes the project, once. -/
theorem project_left_open_on_exit :
    ((main memUplink exampleEnv (withGrant ["get", "todo"])
          (World.start memUplink emptyStore)).2 = 1
      ∧ (main memUplink exampleEnv (withGrant ["get", "todo"])
          (World.start memUplink emptyStore)).1.calls
        = [Call.ParseAccess "grant", Call.OpenProject, Call.EnsureBucket "notes",
            Call.DownloadObject "notes" "todo"])
    ∧ ((main memUplink exampleEnv (withGrant ["frob", "todo"])
          (World.start memUplink emptyStore)).2 = 1
      ∧ (main memUplink exampleEnv (withGrant ["frob", "todo"])
          (World.start memUplink emptyStore)).1.calls
        = [Call.ParseAccess "grant", Call.OpenProject, Call.EnsureBucket "notes"])
    ∧ ((memUplink.OpenProject emptyStore "grant").2.isOk = true
      ∧ (Open memUplink (World.start memUplink emptyStore) "grant" "").2.isOk = false
      ∧ (Open memUplink (World.start memUplink emptyStore) "grant" "").1.calls
        = [Call.OpenProject, Call.EnsureBucket ""])
    ∧ ((main memUplink exampleEnv (withGrant ["get", "todo"])
          (World.start memUplink todoStore)).2 = 0
      ∧ (main memUplink exampleEnv (withGrant ["get", "todo"])
          (World.start memUplink todoStore)).1.calls
        = [Call.ParseAccess "grant", Call.OpenProject, Call.EnsureBucket "notes",
            Call.DownloadObject "notes" "todo", Call.ReadAll, Call.CloseDownload,
            Call.CloseProject]) := by
  decide

/-- The method `Get` writes nothing to the standard output. -/
theorem Get_stdout {U : Uplink} (service : Service U) (env : TimeEnv) (w : World U)
    (identifier : String) : (service.Get env w identifier).1.stdout = w.stdout := by
  unfold Service.Get
  simp only [World.call, World.setUplink, closeDownload]
  split
  · rfl
  · split <;> rfl

/-- The method `List` writes nothing to the standard output. -/
theorem List_stdout {U : Uplink} (service : Service U) (env : TimeEnv) (w : World U)
    (pfx : String) : (service.List env w pfx).1.stdout = w.stdout := by
  unfold Service.List
  simp only [World.call, World.setUplink]
  split <;> rfl

/-- The deferred closure of `main` writes nothing to the standard output. -/
theorem deferredClose_stdout {U : Uplink} (service : Service U) (w : World U) :
    (deferredClose service w).stdout = w.stdout := by
  unfold deferredClose Service.Close
  simp only [World.call, World.setUplink, World.eprint]
  split <;> rfl

/-- With credentials, a command, the access resolved and the service open,
`main` is the switch on the command. -/
theorem main_dispatch (U : Uplink) (env : TimeEnv) (inv : Invocation) (w : World U)
    (access : U.Access) (service : Service U)
    (hcred : ¬ inv.credentialsMissing) (h0 : inv.Arg 0 ≠ "")
    (hacc : (resolveAccess U inv w).2 = Except.ok access)
    (hopen : (Open U (resolveAccess U inv w).1 access inv.bucketName).2 = Except.ok service) :
    main U env inv w
      = dispatch env service (Open U (resolveAccess U inv w).1 access inv.bucketName).1
          (inv.Arg 0) (inv.Arg 1) (inv.Arg 2) := by
  have hc : ¬ (!inv.hasPassword && !inv.hasAccess) = true :=
    fun h => hcred ((credentialsMissing_iff inv).2 h)
  unfold main
  rw [if_neg hc, if_neg h0]
  simp only [hacc, hopen]

/-- The loop that prints the listing adds one line per element, in order. -/
theorem printIdentifiers_eq (identifiers : List NoteMeta) (stdout : String) :
    printIdentifiers identifiers stdout
      = stdout ++ textOfLines (identifiers.map fmtNoteMeta) := by
  induction identifiers generalizing stdout with
  | nil => simp [printIdentifiers, textOfLines]
  | cons m rest ih =>
    simp only [printIdentifiers, ih, Println, List.map_cons, textOfLines, String.append_assoc]

/-- C6, as the code has it. For every invocation of the command `get` in
which the access resolves, the service opens and `Get` returns a note, `main`
ends with status 0 and has written to the standard output one line: the
note as `fmt` prints the whole struct, identifier and upload time before the
message, all between braces. -/
theorem get_prints_whole_note (U : Uplink) (env : TimeEnv) (inv : Invocation) (w : World U)
    (access : U.Access) (service : Service U) (note : Note)
    (hcred : ¬ inv.credentialsMissing) (hcmd : inv.Arg 0 = "get")
    (hacc : (resolveAccess U inv w).2 = Except.ok access)
    (hopen : (Open U (resolveAccess U inv w).1 access inv.bucketName).2 = Except.ok service)
    (hget : (service.Get env (Open U (resolveAccess U inv w).1 access inv.bucketName).1
      (inv.Arg 1)).2 = Except.ok note) :
    (main U env inv w).2 = 0
      ∧ (main U env inv w).1.stdout
        = w.stdout ++ textOfLines ["\x7b\x7b" ++ note.toNoteMeta.Identifier ++ " "
            ++ note.toNoteMeta.Uploaded.String ++ "\x7d " ++ note.Message ++ "\x7d"] := by
  have h0 : inv.Arg 0 ≠ "" := by rw [hcmd]; decide
  rw [main_dispatch U env inv w access service hcred h0 hacc hopen, hcmd]
  unfold dispatch
  simp only [if_true, hget, deferredClose_stdout, Get_stdout, Println]
  refine ⟨trivial, ?_⟩
  rw [(Open_world U _ access inv.bucketName).2.1, (resolveAccess_world U inv w).2.1]
  have hb : ("\x7b\x7b" : String) = "\x7b" ++ "\x7b" := by decide
  have hs : ("\x7d " : String) = "\x7d" ++ " " := by decide
  simp only [textOfLines, fmtNote, fmtNoteMeta, hb, hs, String.append_assoc, String.append_empty]

/-- C6 as stated fails: `get todo` on the store that holds the note `todo`
with the message `buy milk` writes the whole note, not the message alone. -/
theorem get_prints_more_than_message :
    ((⟨(), "notes"⟩ : Service memUplink).Get exampleEnv (World.start memUplink todoStore)
        "todo").2 = Except.ok ⟨⟨"todo", ⟨2020, 1, 2, 12, 0, 0, 0, 0, "UTC"⟩⟩, "buy milk"⟩
    ∧ (main memUplink exampleEnv (withGrant ["get", "todo"])
        (World.start memUplink todoStore)).1.stdout
      = "\x7b\x7btodo 2020-01-02 12:00:00 +0000 UTC\x7d buy milk\x7d\n"
    ∧ (main memUplink exampleEnv (withGrant ["get", "todo"])
        (World.start memUplink todoStore)).1.stdout ≠ "buy milk\n" :=
  ⟨rfl, by decide, by decide⟩

/-- C6, as the code has it, at `get todo` on the store that holds the note. -/
theorem get_prints_whole_note_witness :
    (main memUplink exampleEnv (withGrant ["get", "todo"])
        (World.start memUplink todoStore)).2 = 0
    ∧ (main memUplink exampleEnv (withGrant ["get", "todo"])
        (World.start memUplink todoStore)).1.stdout
      = "" ++ textOfLines ["\x7b\x7b" ++ "todo" ++ " "
          ++ (⟨2020, 1, 2, 12, 0, 0, 0, 0, "UTC"⟩ : Time).String ++ "\x7d " ++ "buy milk"
          ++ "\x7d"] :=
  get_prints_whole_note memUplink exampleEnv (withGrant ["get", "todo"])
    (World.start memUplink todoStore) "grant" ⟨(), "notes"⟩
    ⟨⟨"todo", ⟨2020, 1, 2, 12, 0, 0, 0, 0, "UTC"⟩⟩, "buy milk"⟩
    (by decide) (by decide) rfl rfl rfl

/-- What the command `list` prints. For every invocation of the command
`list` in which the access resolves, the service opens and `List` returns the
metadata `notes` without error, `main` ends with status 0 and has written to
the standard output one line per element of `notes`, in order: the element as
`fmt` prints the whole struct, the identifier and the upload time between
braces, where the identifier alone was meant. -/
theorem list_prints_whole_metadata (U : Uplink) (env : TimeEnv) (inv : Invocation)
    (w : World U) (access : U.Access) (service : Service U) (notes : List NoteMeta)
    (hcred : ¬ inv.credentialsMissing) (hcmd : inv.Arg 0 = "list")
    (hacc : (resolveAccess U inv w).2 = Except.ok access)
    (hopen : (Open U (resolveAccess U inv w).1 access inv.bucketName).2 = Except.ok service)
    (hlist : (service.List env (Open U (resolveAccess U inv w).1 access inv.bucketName).1
      (inv.Arg 1)).2 = (notes, none)) :
    (main U env inv w).2 = 0
      ∧ (main U env inv w).1.stdout
        = w.stdout ++ textOfLines (notes.map (fun m =>
            "\x7b" ++ m.Identifier ++ " " ++ m.Uploaded.String ++ "\x7d")) := by
  have h0 : inv.Arg 0 ≠ "" := by rw [hcmd]; decide
  rw [main_dispatch U env inv w access service hcred h0 hacc hopen, hcmd]
  unfold dispatch
  have hg : ("list" : String) ≠ "get" := by decide
  have hs : ("list" : String) ≠ "set" := by decide
  simp only [if_true, if_neg hg, if_neg hs, hlist, deferredClose_stdout, List_stdout,
    printIdentifiers_eq]
  refine ⟨trivial, ?_⟩
  rw [(Open_world U _ access inv.bucketName).2.1, (resolveAccess_world U inv w).2.1]
  rfl

/-- C7 fails on the code. On the store that holds the note `todo`, `List`
returns the metadata of that one note, and the command `list` writes a line
that is the whole metadata between braces, upload time included, not the
line `todo`: the loop of `main` prints each `identifier` of `identifiers`,
which are `NoteMeta` values, not their `Identifier` fields. -/
theorem list_prints_more_than_identifier :
    ((⟨(), "notes"⟩ : Service memUplink).List exampleEnv (World.start memUplink todoStore)
        "").2 = ([⟨"todo", ⟨2020, 1, 2, 12, 0, 0, 0, 0, "UTC"⟩⟩], none)
    ∧ (main memUplink exampleEnv (withGrant ["list"])
        (World.start memUplink todoStore)).1.stdout
      = "\x7btodo 2020-01-02 12:00:00 +0000 UTC\x7d\n"
    ∧ (main memUplink exampleEnv (withGrant ["list"])
        (World.start memUplink todoStore)).1.stdout ≠ "todo\n" := by
  decide

/-- A decimal digit is a digit character, and its code is 48 above it. -/
theorem digitChar_spec (d : Nat) (h : d < 10) :
    (digitChar d).isDigit = true ∧ (digitChar d).toNat - 48 = d := by
  interval_cases d <;> decide

/-- The digits of a number below ten. -/
theorem decimalDigits_lt (fuel x : Nat) (h : x < 10) :
    decimalDigits (fuel + 1) x = [digitChar x] := by
  simp [decimalDigits, h]

/-- The digits of a number from ten on. -/
theorem decimalDigits_ge (fuel x : Nat) (h : 10 ≤ x) :
    decimalDigits (fuel + 1) x = decimalDigits fuel (x / 10) ++ [digitChar (x % 10)] := by
  simp [decimalDigits, Nat.not_lt.2 h]

/-- The digits of a number below a hundred, with fuel to spare. -/
theorem decimalDigits_two (fuel x : Nat) (h1 : 10 ≤ x) (h : x < 100) :
    decimalDigits (fuel + 2) x = [digitChar (x / 10), digitChar (x % 10)] := by
  rw [decimalDigits_ge (fuel + 1) x h1, decimalDigits_lt fuel (x / 10) (by omega)]
  rfl

/-- The digits of a number below a thousand, with fuel to spare. -/
theorem decimalDigits_three (fuel x : Nat) (h1 : 100 ≤ x) (h : x < 1000) :
    decimalDigits (fuel + 3) x
      = [digitChar (x / 100), digitChar (x / 10 % 10), digitChar (x % 10)] := by
  rw [decimalDigits_ge (fuel + 2) x (by omega),
    decimalDigits_two fuel (x / 10) (by omega) (by omega)]
  have : x / 10 / 10 = x / 100 := by omega
  rw [this]
  rfl

/-- The digits of a number below ten thousand, with fuel to spare. -/
theorem decimalDigits_four (fuel x : Nat) (h1 : 1000 ≤ x) (h : x < 10000) :
    decimalDigits (fuel + 4) x
      = [digitChar (x / 1000), digitChar (x / 100 % 10), digitChar (x / 10 % 10),
          digitChar (x % 10)] := by
  rw [decimalDigits_ge (fuel + 3) x (by omega),
    decimalDigits_three fuel (x / 10) (by omega) (by omega)]
  have h2 : x / 10 / 100 = x / 1000 := by omega
  have h3 : x / 10 / 10 = x / 100 := by omega
  rw [h2, h3]
  rfl

/-- Two columns hold a number below a hundred as its two digits. -/
theorem appendInt_two (x : Nat) (h : x < 100) :
    appendInt x 2 = [digitChar (x / 10), digitChar (x % 10)] := by
  unfold appendInt
  by_cases h1 : x < 10
  · have h2 : x / 10 = 0 := by omega
    have h3 : x % 10 = x := by omega
    simp [decimalDigits_lt x x h1, h2, h3, digitChar]
  · obtain ⟨f, rfl⟩ : ∃ f, x = f + 1 := ⟨x - 1, by omega⟩
    simp [decimalDigits_two f (f + 1) (by omega) h]

/-- Four columns hold a number below ten thousand as its four digits. -/
theorem appendInt_four (x : Nat) (h : x < 10000) :
    appendInt x 4
      = [digitChar (x / 1000), digitChar (x / 100 % 10), digitChar (x / 10 % 10),
          digitChar (x % 10)] := by
  unfold appendInt
  by_cases h1 : x < 10
  · have h2 : x / 1000 = 0 := by omega
    have h3 : x / 100 % 10 = 0 := by omega
    have h4 : x / 10 % 10 = 0 := by omega
    have h5 : x % 10 = x := by omega
    simp [decimalDigits_lt x x h1, h2, h3, h4, h5, digitChar, List.replicate]
  · by_cases h2 : x < 100
    · obtain ⟨f, rfl⟩ : ∃ f, x = f + 1 := ⟨x - 1, by omega⟩
      have h3 : (f + 1) / 1000 = 0 := by omega
      have h4 : (f + 1) / 100 % 10 = 0 := by omega
      have h5 : (f + 1) / 10 % 10 = (f + 1) / 10 := by omega
      simp [decimalDigits_two f (f + 1) (by omega) h2, h3, h4, h5, digitChar, List.replicate]
    · by_cases h3 : x < 1000
      · obtain ⟨f, rfl⟩ : ∃ f, x = f + 2 := ⟨x - 2, by omega⟩
        have h4 : (f + 2) / 1000 = 0 := by omega
        have h5 : (f + 2) / 100 % 10 = (f + 2) / 100 := by omega
        simp [decimalDigits_three f (f + 2) (by omega) h3, h4, h5, digitChar, List.replicate]
      · obtain ⟨f, rfl⟩ : ∃ f, x = f + 3 := ⟨x - 3, by omega⟩
        simp [decimalDigits_four f (f + 3) (by omega) h]

/-- The closure `parseUint` reads two digits back. -/
theorem parseUint_two (a b lo hi : Nat) (ha : a < 10) (hb : b < 10) :
    parseUint [digitChar a, digitChar b] lo hi
      = if a * 10 + b < lo ∨ hi < a * 10 + b then none else some (a * 10 + b) := by
  obtain ⟨ha1, ha2⟩ := digitChar_spec a ha
  obtain ⟨hb1, hb2⟩ := digitChar_spec b hb
  generalize digitChar a = ca at ha1 ha2
  generalize digitChar b = cb at hb1 hb2
  unfold parseUint
  simp only [List.all_cons, List.all_nil, ha1, hb1, Bool.and_self, if_true, List.foldl_cons,
    List.foldl_nil, ha2, hb2, Nat.zero_mul, Nat.zero_add]

/-- The closure `parseUint` reads four digits back. -/
theorem parseUint_four (a b c d lo hi : Nat) (ha : a < 10) (hb : b < 10) (hc : c < 10)
    (hd : d < 10) :
    parseUint [digitChar a, digitChar b, digitChar c, digitChar d] lo hi
      = if ((a * 10 + b) * 10 + c) * 10 + d < lo ∨ hi < ((a * 10 + b) * 10 + c) * 10 + d
        then none else some (((a * 10 + b) * 10 + c) * 10 + d) := by
  obtain ⟨ha1, ha2⟩ := digitChar_spec a ha
  obtain ⟨hb1, hb2⟩ := digitChar_spec b hb
  obtain ⟨hc1, hc2⟩ := digitChar_spec c hc
  obtain ⟨hd1, hd2⟩ := digitChar_spec d hd
  generalize digitChar a = ca at ha1 ha2
  generalize digitChar b = cb at hb1 hb2
  generalize digitChar c = cc at hc1 hc2
  generalize digitChar d = cd at hd1 hd2
  unfold parseUint
  simp only [List.all_cons, List.all_nil, ha1, hb1, hc1, hd1, Bool.and_self, if_true,
    List.foldl_cons, List.foldl_nil, ha2, hb2, hc2, hd2, Nat.zero_mul, Nat.zero_add]

/-- The closure `parseUint` reads a two-column number back when it is within
the bounds. -/
theorem parseUint_appendInt_two (x lo hi : Nat) (h1 : lo ≤ x) (h2 : x ≤ hi) (h : x < 100) :
    parseUint (appendInt x 2) lo hi = some x := by
  rw [appendInt_two x h, parseUint_two _ _ _ _ (by omega) (Nat.mod_lt _ (by decide))]
  have e : x / 10 * 10 + x % 10 = x := by omega
  rw [e, if_neg (by omega)]

/-- The closure `parseUint` reads a four-column number back. -/
theorem parseUint_appendInt_four (x : Nat) (h : x < 10000) :
    parseUint (appendInt x 4) 0 9999 = some x := by
  rw [appendInt_four x h, parseUint_four _ _ _ _ _ _ (by omega) (Nat.mod_lt _ (by decide))
    (Nat.mod_lt _ (by decide)) (Nat.mod_lt _ (by decide))]
  have e : ((x / 1000 * 10 + x / 100 % 10) * 10 + x / 10 % 10) * 10 + x % 10 = x := by omega
  rw [e, if_neg (by omega)]

/-- A two-column number is two characters that `parseUint` reads back. -/
theorem two_chars (x lo hi : Nat) (h1 : lo ≤ x) (h2 : x ≤ hi) (h : x < 100) :
    ∃ a b, appendInt x 2 = [a, b] ∧ parseUint [a, b] lo hi = some x :=
  ⟨_, _, appendInt_two x h, by rw [← appendInt_two x h]; exact parseUint_appendInt_two x lo hi h1 h2 h⟩

/-- A four-column number is four characters that `parseUint` reads back. -/
theorem four_chars (x : Nat) (h : x < 10000) :
    ∃ a b c d, appendInt x 4 = [a, b, c, d] ∧ parseUint [a, b, c, d] 0 9999 = some x :=
  ⟨_, _, _, _, appendInt_four x h,
    by rw [← appendInt_four x h]; exact parseUint_appendInt_four x h⟩

/-- The strict parser on the RFC 3339 encoding of a time with offset zero. -/
theorem parseRFC3339_format_utc (env : TimeEnv) (t : Time) (ht : t.Civil) (h0 : t.offset = 0) :
    parseRFC3339 env (formatRFC3339 t).data = some (t.reread env) := by
  obtain ⟨hy, hm1, hm2, hd1, hd2, hh, hmi, hs, -, -⟩ := ht
  have hdd : daysIn t.month t.year ≤ 31 := by
    unfold daysIn; split
    · omega
    · split <;> omega
  obtain ⟨y1, y2, y3, y4, ey, py⟩ := four_chars t.year (by omega)
  obtain ⟨m1, m2, em, pm⟩ := two_chars t.month 1 12 hm1 hm2 (by omega)
  obtain ⟨d1, d2, ed, pd⟩ := two_chars t.day 1 (daysIn t.month t.year) hd1 hd2 (by omega)
  obtain ⟨h1, h2, eh, ph⟩ := two_chars t.hour 0 23 (by omega) hh (by omega)
  obtain ⟨n1, n2, en, pn⟩ := two_chars t.minute 0 59 (by omega) hmi (by omega)
  obtain ⟨s1, s2, es, ps⟩ := two_chars t.second 0 59 (by omega) hs (by omega)
  unfold formatRFC3339 appendDateClock Time.reread
  rw [ey, em, ed, eh, en, es]
  simp [h0, parseRFC3339, slice, py, pm, pd, ph, pn, ps]

/-- The strict parser on the RFC 3339 encoding of a time with a numeric
offset. -/
theorem parseRFC3339_format_zone (env : TimeEnv) (t : Time) (ht : t.Civil)
    (h0 : t.offset ≠ 0) :
    parseRFC3339 env (formatRFC3339 t).data = some (t.reread env) := by
  obtain ⟨hy, hm1, hm2, hd1, hd2, hh, hmi, hs, ho1, ho2⟩ := ht
  have ho3 : 60 ≤ t.offset.natAbs := by
    rcases ho2 with h | h
    · exact absurd h h0
    · exact h
  have hdd : daysIn t.month t.year ≤ 31 := by
    unfold daysIn; split
    · omega
    · split <;> omega
  obtain ⟨y1, y2, y3, y4, ey, py⟩ := four_chars t.year (by omega)
  obtain ⟨m1, m2, em, pm⟩ := two_chars t.month 1 12 hm1 hm2 (by omega)
  obtain ⟨d1, d2, ed, pd⟩ := two_chars t.day 1 (daysIn t.month t.year) hd1 hd2 (by omega)
  obtain ⟨h1, h2, eh, ph⟩ := two_chars t.hour 0 23 (by omega) hh (by omega)
  obtain ⟨n1, n2, en, pn⟩ := two_chars t.minute 0 59 (by omega) hmi (by omega)
  obtain ⟨s1, s2, es, ps⟩ := two_chars t.second 0 59 (by omega) hs (by omega)
  have hz : (Int.tdiv t.offset 60).natAbs = t.offset.natAbs / 60 := by
    rw [Int.natAbs_tdiv]; rfl
  obtain ⟨a1, a2, ea, pa⟩ := two_chars ((Int.tdiv t.offset 60).natAbs / 60) 0 23 (by omega)
    (by omega) (by omega)
  obtain ⟨b1, b2, eb, pb⟩ := two_chars ((Int.tdiv t.offset 60).natAbs % 60) 0 59 (by omega)
    (by omega) (by omega)
  have hrec : (((Int.tdiv t.offset 60).natAbs / 60 * 60
      + (Int.tdiv t.offset 60).natAbs % 60 : Nat) : Int) = ((Int.tdiv t.offset 60).natAbs : Int) := by
    congr 1
    omega
  unfold formatRFC3339 appendDateClock appendZone Time.reread
  rw [ey, em, ed, eh, en, es]
  simp only [if_neg h0]
  rw [ea, eb]
  have hN : t.offset.natAbs.div 60 = (Int.tdiv t.offset 60).natAbs := by
    rw [Int.natAbs_tdiv]; rfl
  by_cases hneg : Int.tdiv t.offset 60 < 0
  · have e : -(((t.offset.natAbs.div 60 : Nat) / 60 * 60
        + ((t.offset.natAbs.div 60 : Nat) : Int) % 60) * 60) = Int.tdiv t.offset 60 * 60 := by
      rw [hN]; omega
    simp [h0, hneg, parseRFC3339, slice, py, pm, pd, ph, pn, ps, pa, pb]
    rw [e]
    cases env.localAbbrev _ <;> rfl
  · have e : (((t.offset.natAbs.div 60 : Nat) / 60 * 60
        + ((t.offset.natAbs.div 60 : Nat) : Int) % 60) * 60) = Int.tdiv t.offset 60 * 60 := by
      rw [hN]; omega
    simp [h0, hneg, parseRFC3339, slice, py, pm, pd, ph, pn, ps, pa, pb]
    rw [e]
    cases env.localAbbrev _ <;> rfl

/-- The time the strict parser reads back encodes as the time encoded. -/
theorem formatRFC3339_reread (env : TimeEnv) (t : Time) (ht : t.Civil) :
    formatRFC3339 (t.reread env) = formatRFC3339 t := by
  unfold Time.reread
  by_cases h0 : t.offset = 0
  · simp [h0, formatRFC3339, appendDateClock]
  · have ho3 : 60 ≤ t.offset.natAbs := by
      rcases ht.2.2.2.2.2.2.2.2.2 with h | h
      · exact absurd h h0
      · exact h
    have hz : (Int.tdiv t.offset 60).natAbs = t.offset.natAbs / 60 := by
      rw [Int.natAbs_tdiv]; rfl
    have hne : Int.tdiv t.offset 60 * 60 ≠ 0 := by
      have : (Int.tdiv t.offset 60).natAbs ≠ 0 := by omega
      omega
    have hc : Int.tdiv (Int.tdiv t.offset 60 * 60) 60 = Int.tdiv t.offset 60 :=
      Int.mul_tdiv_cancel _ (by decide)
    simp only [if_neg h0]
    cases env.localAbbrev _ <;>
      simp [formatRFC3339, appendDateClock, appendZone, h0, hne, hc]

/-- The call `time.Parse(time.RFC3339, s)` on the RFC 3339 encoding of a time
succeeds with the time the strict parser reads back. -/
theorem timeParse_format (env : TimeEnv) (t : Time) (ht : t.Civil) :
    timeParse env (formatRFC3339 t) = some (t.reread env) := by
  unfold timeParse
  by_cases h0 : t.offset = 0
  · rw [parseRFC3339_format_utc env t ht h0]
  · rw [parseRFC3339_format_zone env t ht h0]

/-- C3, as the code has it. For every time `t` as the clock gives it and every
object info whose custom metadata holds under `notes:upload-time` the RFC 3339
encoding of `t`, which is what `Set` writes there: the encoding parses, and
encoding `ParseNoteMeta(info).Uploaded` again gives the same string. -/
theorem upload_time_roundtrip (env : TimeEnv) (t : Time) (info : Object)
    (custom : CustomMetadata) (stderr : List StderrItem) (ht : t.Civil)
    (hc : info.Custom = some custom)
    (hk : custom.lookup uploadTime = some (formatRFC3339 t)) :
    (timeParse env (formatRFC3339 t)).isSome = true
      ∧ formatRFC3339 (ParseNoteMeta env info stderr).1.Uploaded = formatRFC3339 t := by
  have hp := timeParse_format env t ht
  refine ⟨by rw [hp]; rfl, ?_⟩
  unfold ParseNoteMeta
  simp only [hc, hk, hp]
  exact formatRFC3339_reread env t ht

/-- C3 as stated fails: a timestamp with a fractional second, or with the
offset `+00:00`, parses with the RFC 3339 layout, and encoding the parsed time
with the same layout gives another string. -/
theorem upload_time_not_reproduced :
    (timeParse exampleEnv "2020-01-01T00:00:00.5Z"
        = some ⟨2020, 1, 1, 0, 0, 0, 500000000, 0, "UTC"⟩
      ∧ formatRFC3339 (ParseNoteMeta exampleEnv
          ⟨"todo", some [(uploadTime, "2020-01-01T00:00:00.5Z")]⟩ []).1.Uploaded
        = "2020-01-01T00:00:00Z")
    ∧ (timeParse exampleEnv "2020-01-01T00:00:00+00:00"
        = some ⟨2020, 1, 1, 0, 0, 0, 0, 0, "UTC"⟩
      ∧ formatRFC3339 (ParseNoteMeta exampleEnv
          ⟨"todo", some [(uploadTime, "2020-01-01T00:00:00+00:00")]⟩ []).1.Uploaded
        = "2020-01-01T00:00:00Z") := by
  decide

/-- C3, as the code has it, at the last second of 29 February 2020 in a zone
seven and a half hours west of UTC. -/
theorem upload_time_roundtrip_witness :
    (timeParse exampleEnv (formatRFC3339 ⟨2020, 2, 29, 23, 59, 59, 123, -27000, "X"⟩)).isSome
        = true
      ∧ formatRFC3339 (ParseNoteMeta exampleEnv
          ⟨"todo", some [(uploadTime, "2020-02-29T23:59:59-07:30")]⟩ []).1.Uploaded
        = formatRFC3339 ⟨2020, 2, 29, 23, 59, 59, 123, -27000, "X"⟩ :=
  upload_time_roundtrip exampleEnv ⟨2020, 2, 29, 23, 59, 59, 123, -27000, "X"⟩
    ⟨"todo", some [(uploadTime, "2020-02-29T23:59:59-07:30")]⟩
    [(uploadTime, "2020-02-29T23:59:59-07:30")] [] (by decide) rfl (by decide)

end Notes
